import Mathlib

/-!
Verification of the SheetMind Action Execution and Undo Engine
(frontend/deploy/Code.gs) against its natural-language specification.

The Google Apps Script source is embedded shallowly:

* a Workbook is an ordered list of named Sheets plus the index of the
  active sheet; a Sheet is a named grid of string-valued cells
  (the empty string denotes an empty cell, matching the way the source
  treats empty, null and undefined values uniformly);
* handlers are pure state transformers returning
  Except String (Workbook × String): the .ok branch carries the mutated
  workbook and the human-readable result string of the source, the
  .error branch models a thrown Apps Script exception carrying the
  exception message;
* host primitives (getRange, getLastRow, deleteRows, copyTo, flush) are
  modelled on the grid directly; copyTo copies the literal cell text
  (relative-reference adjustment is not observed by any verified claim);
  purely visual host effects (fonts, borders, charts, filters, frozen
  panes, conditional-format and validation rules) do not change the grid
  or the sheet list and are modelled as identity on the data model while
  keeping the control flow (sheet lookup, thrown exceptions, result
  messages) of the source.

Everything is placed in the Sheetmind namespace to avoid clashes with
Mathlib names.
-/

namespace Sheetmind

/-- A single-character string holding the apostrophe (character 39), used
to build the result messages of the source verbatim. -/
def sq : String := String.singleton (Char.ofNat 39)

/-- A sheet grid, row major and 1-based through the access helpers; the
empty string denotes an empty cell. -/
abbrev Grid := List (List String)

/-- A named sheet of the workbook; charts counts the embedded chart
objects (their visual content is not modelled). -/
structure Sheet where
  name : String
  grid : Grid
  charts : Nat := 0
deriving Repr, DecidableEq, Inhabited

/-- The spreadsheet document: an ordered list of sheets plus the index
of the active sheet (SpreadsheetApp.getActiveSheet). -/
structure Workbook where
  sheets : List Sheet
  active : Nat := 0
deriving Repr, DecidableEq, Inhabited

/-- Value of the cell at 1-based (row, col); empty string when outside
the grid. -/
def getCell (g : Grid) (r c : Nat) : String :=
  (((g.get? (r - 1)).getD []).get? (c - 1)).getD ""

/-- Pads a list on the right with a default element up to length n. -/
def padTo (l : List α) (n : Nat) (dflt : α) : List α :=
  l ++ List.replicate (n - l.length) dflt

/-- Writes v at 1-based position c of a row, growing the row as needed. -/
def setRowCell (row : List String) (c : Nat) (v : String) : List String :=
  (padTo row c "").set (c - 1) v

/-- Writes v at 1-based (row, col) of a grid, growing the grid as needed
(the host grows a sheet when a value is written past its bounds). -/
def setCell (g : Grid) (r c : Nat) (v : String) : Grid :=
  let g2 := padTo g r []
  g2.set (r - 1) (setRowCell ((g2.get? (r - 1)).getD []) c v)

/-- True when the row holds at least one non-empty cell. -/
def rowHasData (row : List String) : Bool :=
  row.any (fun v => v ≠ "")

/-- Host getLastRow: the largest 1-based index of a row holding content,
0 when the sheet is empty. -/
def lastRowOf (g : Grid) : Nat :=
  (List.range g.length).foldl
    (fun acc i => if rowHasData ((g.get? i).getD []) then i + 1 else acc) 0

/-- Largest 1-based index of a non-empty cell of a single row. -/
def rowLastCol (row : List String) : Nat :=
  (List.range row.length).foldl
    (fun acc i => if ((row.get? i).getD "") ≠ "" then i + 1 else acc) 0

/-- Host getLastColumn: the largest 1-based column index holding content. -/
def lastColOf (g : Grid) : Nat :=
  g.foldl (fun acc row => max acc (rowLastCol row)) 0

/-- Largest 1-based row index at which column c holds content, 0 when
the column is blank; used to state what the specification asserts about
the adjacent-column fill-down extent. -/
def colLastPopulatedRow (g : Grid) (c : Nat) : Nat :=
  (List.range g.length).foldl
    (fun acc i => if getCell g (i + 1) c ≠ "" then i + 1 else acc) 0

/-- getSheetByName of the host: first sheet carrying the name. -/
def getSheetByName (wb : Workbook) (nm : String) : Option Sheet :=
  wb.sheets.find? (fun s => s.name = nm)

/-- getActiveSheet of the host. -/
def getActiveSheet (wb : Workbook) : Option Sheet :=
  wb.sheets.get? wb.active

/-- Replaces every sheet carrying the name by f of it (sheet names are
unique in a live document, so exactly one sheet is touched). -/
def updateSheet (wb : Workbook) (nm : String) (f : Sheet → Sheet) : Workbook :=
  { wb with sheets := wb.sheets.map (fun s => if s.name = nm then f s else s) }

/-- Replaces the active sheet by f of it. -/
def updateActiveSheet (wb : Workbook) (f : Sheet → Sheet) : Workbook :=
  match wb.sheets.get? wb.active with
  | some s => { wb with sheets := wb.sheets.set wb.active (f s) }
  | none => wb

/-- SpreadsheetApp.flush synchronizes pending writes; the model applies
writes eagerly, so it is the identity. -/
def flush (wb : Workbook) : Workbook := wb

/-- Source _colLetter (Code.gs lines 23 to 34) without the memo table:
bijective base-26 encoding of a positive column index, digit list built
low to high on the left of the accumulator. -/
def _colLetterChars (c : Nat) : List Char :=
  if c = 0 then []
  else _colLetterChars ((c - 1) / 26) ++ [Char.ofNat (65 + (c - 1) % 26)]
decreasing_by
  exact Nat.lt_of_le_of_lt (Nat.div_le_self _ _) (Nat.sub_lt (Nat.pos_of_ne_zero (by assumption)) Nat.one_pos)

/-- String form of _colLetter. -/
def _colLetter (c : Nat) : String := String.mk (_colLetterChars c)

/-- Source _colLetter with its module-level memo table _colCache,
modelled as an association list; a cached empty string is falsy in
JavaScript and is therefore recomputed, exactly as the truthiness test
of the source does. -/
def _colLetterMemo (cache : List (Nat × String)) (c : Nat) :
    String × List (Nat × String) :=
  match cache.lookup c with
  | some s =>
    if s ≠ "" then (s, cache)
    else ((_colLetter c), (c, _colLetter c) :: cache)
  | none => ((_colLetter c), (c, _colLetter c) :: cache)

/-- Source _letterToColumn (Code.gs lines 39 to 45): polynomial base-26
decoding of a column letter string. -/
def _letterToColumn (letter : String) : Nat :=
  letter.toList.foldl (fun col ch => col * 26 + (ch.toNat - 64)) 0

/-- The character emitted for one bijective base-26 digit decodes back
to the digit. -/
lemma toNat_digitChar {m : Nat} (hm : m < 26) :
    (Char.ofNat (65 + m)).toNat = 65 + m := by
  interval_cases m <;> decide

/-- Unfolds _letterToColumn over an appended digit. -/
lemma letterToColumn_append (l : List Char) (ch : Char) :
    (String.mk (l ++ [ch])).toList.foldl (fun col c => col * 26 + (c.toNat - 64)) 0 =
      (String.mk l).toList.foldl (fun col c => col * 26 + (c.toNat - 64)) 0 * 26 +
        (ch.toNat - 64) := by
  simp [String.toList, List.foldl_append]

/-- Round trip of the column codec for every index, 0 included (the
empty letter string decodes to 0). -/
lemma letterToColumn_colLetter (n : Nat) : _letterToColumn (_colLetter n) = n := by
  induction n using Nat.strong_induction_on with
  | _ n ih =>
    by_cases h0 : n = 0
    · subst h0
      simp [_colLetter, _letterToColumn, _colLetterChars]
    · have hrec : (n - 1) / 26 < n :=
        Nat.lt_of_le_of_lt (Nat.div_le_self _ _) (Nat.sub_lt (Nat.pos_of_ne_zero h0) Nat.one_pos)
      have ihr := ih ((n - 1) / 26) hrec
      rw [_colLetter, _colLetterChars]
      simp only [h0, if_false]
      unfold _letterToColumn at ihr ⊢
      simp only [_colLetter] at ihr
      rw [letterToColumn_append, ihr,
        toNat_digitChar (Nat.mod_lt _ (by decide))]
      have := Nat.div_add_mod (n - 1) 26
      omega

/-- A successful association-list lookup comes from a member pair. -/
lemma mem_of_lookup_eq_some {l : List (Nat × String)} {n : Nat} {s : String}
    (h : l.lookup n = some s) : (n, s) ∈ l := by
  induction l with
  | nil => simp [List.lookup] at h
  | cons p rest ih =>
    obtain ⟨k, v⟩ := p
    by_cases hk : n = k
    · subst hk
      simp [List.lookup] at h
      simp [h]
    · have hbeq : (n == k) = false := beq_false_of_ne hk
      simp [List.lookup, hbeq] at h
      exact List.mem_cons_of_mem _ (ih h)

/-- C8: for every n in [1, 18278] the decoder inverts the encoder, and
the memoized encoder agrees with the plain one on every cache whose
entries are themselves correct (the only caches the source can build),
while keeping the cache correct. -/
theorem colLetter_letterToColumn_roundtrip (n : Nat)
    (h1 : 1 ≤ n) (h2 : n ≤ 18278) :
    _letterToColumn (_colLetter n) = n
    ∧ ∀ cache, (∀ p ∈ cache, p.2 = _colLetter p.1) →
        (_colLetterMemo cache n).1 = _colLetter n
        ∧ ∀ p ∈ (_colLetterMemo cache n).2, p.2 = _colLetter p.1 := by
  refine ⟨letterToColumn_colLetter n, ?_⟩
  intro cache hc
  unfold _colLetterMemo
  cases hl : cache.lookup n with
  | none =>
    refine ⟨rfl, ?_⟩
    intro p hp
    rcases List.mem_cons.mp hp with h | h
    · rw [h]
    · exact hc p h
  | some s =>
    by_cases hs : s = ""
    · subst hs
      simp only [ne_eq, not_true_eq_false, if_false]
      refine ⟨by simp, ?_⟩
      intro p hp
      rcases List.mem_cons.mp hp with h | h
      · rw [h]
      · exact hc p h
    · have hmem : (n, s) ∈ cache := mem_of_lookup_eq_some hl
      have hval := hc (n, s) hmem
      simp only [ne_eq, hs, not_false_eq_true, if_true]
      exact ⟨hval, hc⟩

/-- C8 witness: the round trip and the memoized encoder at n = 703
(letters AAA) on the empty cache. -/
theorem colLetter_letterToColumn_roundtrip_witness :
    _letterToColumn (_colLetter 703) = 703
    ∧ (_colLetterMemo [] 703).1 = _colLetter 703 := by
  have h := colLetter_letterToColumn_roundtrip 703 (by decide) (by decide)
  exact ⟨h.1, (h.2 [] (by simp)).1⟩

/-- Character class A-Z. -/
def isUpperAlpha (ch : Char) : Bool :=
  65 ≤ ch.toNat ∧ ch.toNat ≤ 90

/-- Character class 0-9. -/
def isDigitChar (ch : Char) : Bool :=
  48 ≤ ch.toNat ∧ ch.toNat ≤ 57

/-- Decimal value of a digit string, as parseInt reads it. -/
def natOfDigits (cs : List Char) : Nat :=
  cs.foldl (fun n c => n * 10 + (c.toNat - 48)) 0

/-- The cell regex of the source (letters part, digits part, anchored on
both sides), returning the captured column letters and row number. -/
def _cellMatch (cell : String) : Option (String × Nat) :=
  let cs := cell.toList
  let letters := cs.takeWhile isUpperAlpha
  let rest := cs.dropWhile isUpperAlpha
  if letters ≠ [] ∧ rest ≠ [] ∧ rest.all isDigitChar then
    some (String.mk letters, natOfDigits rest)
  else none

/-- Cell reference as (row, column index); the host getRange accepts a
wider grammar (dollar signs, lower case) than the cell regex of the
source, but every reference observed by the verified claims is written
in the canonical upper-case form on which the two grammars agree. -/
def parseCellRC (s : String) : Option (Nat × Nat) :=
  (_cellMatch s).map (fun p => (p.2, _letterToColumn p.1))

/-- Splits a character list at the colons, as the JavaScript split
does. -/
def splitOnColonAux : List Char → List Char → List (List Char)
  | [], acc => [acc.reverse]
  | c :: cs, acc =>
    if c = ':' then acc.reverse :: splitOnColonAux cs []
    else splitOnColonAux cs (c :: acc)

/-- Host getRange on an A1-style rectangle string, as (r1, c1, r2, c2);
whole-row and whole-column selectors are not needed by any claim. -/
def parseRangeA1 (s : String) : Option (Nat × Nat × Nat × Nat) :=
  match (splitOnColonAux s.toList []).map String.mk with
  | [one] => (parseCellRC one).map (fun p => (p.1, p.2, p.1, p.2))
  | [a, b] =>
    match parseCellRC a, parseCellRC b with
    | some p, some q => some (p.1, p.2, q.1, q.2)
    | _, _ => none
  | _ => none

/-- The fixed auto-spill function names of the source regex
(Code.gs line 571). -/
def autoSpillNames : List String :=
  ["UNIQUE", "FILTER", "SORT", "SORTN", "SEQUENCE", "ARRAYFORMULA",
   "SPLIT", "TRANSPOSE", "FLATTEN"]

/-- Whitespace class of the regex engine, restricted to the blanks that
can occur in a formula string. -/
def isSpaceChar (ch : Char) : Bool :=
  ch = ' ' ∨ ch = '\t' ∨ ch = '\n' ∨ ch = '\r'

/-- Upper-cases an ASCII letter, for the case-insensitive regex flag. -/
def toUpperChar (ch : Char) : Char :=
  if 97 ≤ ch.toNat ∧ ch.toNat ≤ 122 then Char.ofNat (ch.toNat - 32) else ch

/-- Strips a function name case-insensitively from the front of the
character list, returning the remainder on success. -/
def stripNameCI : List Char → List Char → Option (List Char)
  | [], cs => some cs
  | _ :: _, [] => none
  | n :: ns, c :: cs => if toUpperChar c = n then stripNameCI ns cs else none

/-- The auto-spill regex of the source: an equals sign, optional blanks,
one of the fixed function names (case-insensitive), optional blanks, an
opening parenthesis; the regex alternation with backtracking matches
whenever any one name completes the pattern. -/
def isAutoSpill (formula : String) : Bool :=
  match formula.toList with
  | c :: rest =>
    if c = '=' then
      let afterEq := rest.dropWhile isSpaceChar
      autoSpillNames.any (fun nm =>
        match stripNameCI nm.toList afterEq with
        | some r => (r.dropWhile isSpaceChar).head? == some '('
        | none => false)
    else false
  | [] => false

/-- Writes v into a column of count consecutive rows starting at
startRow: the grid effect of copying a one-cell source range down over a
column segment (host copyTo; relative-reference adjustment of the copied
formula text is not observed by any verified claim). -/
def fillDownCells (g : Grid) (startRow colIndex count : Nat) (v : String) : Grid :=
  (List.range count).foldl (fun acc k => setCell acc (startRow + k) colIndex v) g

/-- Values of a rectangle of the grid, row major. -/
def rangeValues (g : Grid) (r1 c1 r2 c2 : Nat) : List (List String) :=
  (List.range (r2 + 1 - r1)).map (fun i =>
    (List.range (c2 + 1 - c1)).map (fun j => getCell g (r1 + i) (c1 + j)))

/-- Writes a block of values with its upper-left corner at (r, c). -/
def setValuesRect (g : Grid) (r c : Nat) (vals : List (List String)) : Grid :=
  vals.enum.foldl (fun acc p =>
    p.2.enum.foldl (fun acc2 q => setCell acc2 (r + p.1) (c + q.1) q.2) acc) g

/-- Empties every cell of the rectangle (host Range.clear on contents). -/
def clearRect (g : Grid) (r1 c1 r2 c2 : Nat) : Grid :=
  g.enum.map (fun p =>
    if r1 ≤ p.1 + 1 ∧ p.1 + 1 ≤ r2 then
      p.2.enum.map (fun q => if c1 ≤ q.1 + 1 ∧ q.1 + 1 ≤ c2 then "" else q.2)
    else p.2)

/-- Host Sheet.deleteRows(start, count): removes the 1-based rows
start..start+count-1; the host throws when the range leaves the sheet
bounds (grid length stands for the physical row count), modelled as none. -/
def deleteRowsAt (g : Grid) (start count : Nat) : Option Grid :=
  if 1 ≤ start ∧ 1 ≤ count ∧ start + count - 1 ≤ g.length then
    some (g.take (start - 1) ++ g.drop (start - 1 + count))
  else none

/-- Removes the 1-based column c from every row. -/
def deleteColAt (g : Grid) (c : Nat) : Grid :=
  g.map (fun row => row.take (c - 1) ++ row.drop c)

/-- Inserts a blank column after 1-based column c in every row. -/
def insertColAfter (g : Grid) (c : Nat) : Grid :=
  g.map (fun row => row.take c ++ [""] ++ row.drop c)

/-- The condition object of deleteRows: delete rows whose cell in the
given column is empty, or equals the given value. -/
structure DeleteCondition where
  column : String := ""
  empty : Bool := false
  value : Option String := none
deriving Repr, DecidableEq, Inhabited

/-- An action object as proposed by the model and consumed by
executeSheetAction. The source receives an untyped JSON object; this
record carries every field the dispatcher reads, with the JavaScript
absent-field states mapped to the defaults. Two JSON keys are used with
a different type by different actions and are therefore split here:
the numeric rows and columns of freeze become freezeRows and
freezeColumns, and the string form columns = all of autoResize becomes
columnsAll. -/
structure Action where
  action : String := ""
  column : String := ""
  criteria : String := ""
  ascending : Bool := true
  range : String := ""
  color : String := ""
  cell : String := ""
  value : String := ""
  after : String := ""
  header : String := ""
  type : String := ""
  dataRange : String := ""
  title : String := ""
  chartType : String := ""
  dataSheet : String := ""
  labelColumn : String := ""
  valueColumn : String := ""
  startRow : Nat := 0
  endRow : Nat := 0
  name : String := ""
  sheet : String := ""
  formula : String := ""
  fillDown : Bool := false
  values : List (List String) := []
  sourceCell : String := ""
  lastRow : Nat := 0
  rows : List Nat := []
  condition : Option DeleteCondition := none
  columns : List String := []
  columnsAll : Bool := false
  freezeRows : Option Nat := none
  freezeColumns : Option Nat := none
  oldName : String := ""
  newName : String := ""
  source : String := ""
  find : String := ""
  replace : String := ""
  matchCase : Bool := false
  sourceSheet : String := ""
  sourceRange : String := ""
  destSheet : String := ""
  destCell : String := ""
  valuesOnly : Bool := false
  format : String := ""
  borderStyle : String := ""
  operator : String := ""
deriving Repr, DecidableEq, Inhabited

/-- Source _getSheet (Code.gs lines 52 to 58): the active sheet when no
name is given, otherwise a lookup that THROWS when the name is missing
(the one sheet-resolution helper that does not degrade to a message). -/
def _getSheet (wb : Workbook) (sheetName : String) : Except String Sheet :=
  if sheetName = "" then
    match getActiveSheet wb with
    | some s => .ok s
    | none => .error "No active sheet"
  else
    match getSheetByName wb sheetName with
    | some s => .ok s
    | none => .error ("Sheet not found: " ++ sheetName)

/-- Source _applyFilter: operates on the active sheet; the hidden-value
computation only drives the display filter and is not modelled; the
criteria regex of the source fails only on the empty string. -/
def _applyFilter (wb : Workbook) (columnLetter criteria : String) :
    Except String (Workbook × String) :=
  match getActiveSheet wb with
  | none => .error "No active sheet"
  | some _ =>
    if criteria = "" then .ok (wb, "Invalid criteria: " ++ criteria)
    else .ok (wb, "Filtered column " ++ columnLetter ++ " where " ++ criteria)

/-- Source _applySort: sorts rows 2..lastRow of the active sheet by a
column; the row permutation itself is not observed by any verified claim
and is not modelled, only the sheet-level control flow and message. -/
def _applySort (wb : Workbook) (columnLetter : String) (ascending : Bool) :
    Except String (Workbook × String) :=
  match getActiveSheet wb with
  | none => .error "No active sheet"
  | some _ =>
    .ok (wb, "Sorted by column " ++ columnLetter ++
      (if ascending then " (A-Z)" else " (Z-A)"))

/-- Source _applyHighlight: background color on a range of the active
sheet (visual only; the range parse of the host can throw). -/
def _applyHighlight (wb : Workbook) (rangeStr color : String) :
    Except String (Workbook × String) :=
  match getActiveSheet wb with
  | none => .error "No active sheet"
  | some _ =>
    match parseRangeA1 rangeStr with
    | none => .error ("Range not found: " ++ rangeStr)
    | some _ => .ok (wb, "Highlighted " ++ rangeStr ++ " with " ++ color)

/-- Source _setCellValue: writes one value on the active sheet. -/
def _setCellValue (wb : Workbook) (cell value : String) :
    Except String (Workbook × String) :=
  match getActiveSheet wb with
  | none => .error "No active sheet"
  | some _ =>
    match parseCellRC cell with
    | none => .error ("Range not found: " ++ cell)
    | some p =>
      .ok (updateActiveSheet wb (fun s => { s with grid := setCell s.grid p.1 p.2 value }),
        "Set " ++ cell ++ " to " ++ value)

/-- Source _insertColumn: inserts a column after the given letter on the
active sheet, optionally writing a header into row 1 of the new column. -/
def _insertColumn (wb : Workbook) (afterLetter header : String) :
    Except String (Workbook × String) :=
  match getActiveSheet wb with
  | none => .error "No active sheet"
  | some _ =>
    let colIndex := _letterToColumn afterLetter.toUpper
    let wb2 := updateActiveSheet wb (fun s => { s with grid := insertColAfter s.grid colIndex })
    let wb3 :=
      if header ≠ "" then
        updateActiveSheet wb2 (fun s => { s with grid := setCell s.grid 1 (colIndex + 1) header })
      else wb2
    .ok (wb3, "Inserted column after " ++ afterLetter ++
      (if header ≠ "" then " with header " ++ sq ++ header ++ sq else ""))

/-- A1 string of the data range, as the host prints it. -/
def dataRangeA1 (numRows numCols : Nat) : String :=
  if numRows = 1 ∧ numCols = 1 then "A1"
  else "A1:" ++ _colLetter numCols ++ toString numRows

/-- Source _createChart: chart on the active sheet over the given range
string, or the data range when none is given. -/
def _createChart (wb : Workbook) (chartType dataRangeStr _title : String) :
    Except String (Workbook × String) :=
  match getActiveSheet wb with
  | none => .error "No active sheet"
  | some s =>
    let rangeUsed :=
      if dataRangeStr = "" then dataRangeA1 (max (lastRowOf s.grid) 1) (max (lastColOf s.grid) 1)
      else dataRangeStr
    match parseRangeA1 rangeUsed with
    | none => .error ("Range not found: " ++ rangeUsed)
    | some _ =>
      .ok (updateActiveSheet wb (fun sh => { sh with charts := sh.charts + 1 }),
        "Created " ++ (if chartType = "" then "BAR" else chartType) ++
          " chart from " ++ rangeUsed)

/-- Source _createChartOnSheet: chart on a named sheet over a range
string (AI freeform format). -/
def _createChartOnSheet (wb : Workbook) (chartType title sheetName rangeStr : String) :
    Except String (Workbook × String) :=
  match (if sheetName = "" then getActiveSheet wb else getSheetByName wb sheetName) with
  | none => .ok (wb, "Sheet not found: " ++ sheetName)
  | some s =>
    let rangeUsed :=
      if rangeStr = "" then dataRangeA1 (max (lastRowOf s.grid) 1) (max (lastColOf s.grid) 1)
      else rangeStr
    match parseRangeA1 rangeUsed with
    | none => .error ("Range not found: " ++ rangeUsed)
    | some _ =>
      .ok (updateSheet wb s.name (fun sh => { sh with charts := sh.charts + 1 }),
        "Created " ++ (if chartType = "" then "bar" else chartType) ++ " chart " ++
          sq ++ title ++ sq ++ " on " ++ s.name ++ " from " ++ rangeStr)

/-- Source _createChartFromColumns: chart built from separate label and
value column ranges on a named sheet. -/
def _createChartFromColumns (wb : Workbook)
    (chartType title dataSheet labelColumn valueColumn : String)
    (startRow endRow : Nat) : Except String (Workbook × String) :=
  match (if dataSheet = "" then getActiveSheet wb else getSheetByName wb dataSheet) with
  | none => .ok (wb, "Sheet not found: " ++ dataSheet)
  | some s =>
    let lastRowUsed := if endRow ≠ 0 then endRow else lastRowOf s.grid
    let firstRow := if startRow ≠ 0 then startRow else 2
    let labelRangeStr := labelColumn ++ toString firstRow ++ ":" ++ labelColumn ++ toString lastRowUsed
    let valueRangeStr := valueColumn ++ toString firstRow ++ ":" ++ valueColumn ++ toString lastRowUsed
    match parseRangeA1 labelRangeStr, parseRangeA1 valueRangeStr with
    | some _, some _ =>
      .ok (updateSheet wb s.name (fun sh => { sh with charts := sh.charts + 1 }),
        "Created " ++ (if chartType = "" then "bar" else chartType) ++ " chart " ++
          sq ++ title ++ sq ++ " from " ++ dataSheet ++
          " (" ++ labelRangeStr ++ ", " ++ valueRangeStr ++ ")")
    | _, _ => .error "Range not found"

/-- Source _deleteChartsOnSheet: removes every chart of the sheet. -/
def _deleteChartsOnSheet (wb : Workbook) (sheetName : String) :
    Except String (Workbook × String) :=
  match (if sheetName = "" then getActiveSheet wb else getSheetByName wb sheetName) with
  | none => .ok (wb, "Sheet not found: " ++ sheetName)
  | some s =>
    .ok (updateSheet wb s.name (fun sh => { sh with charts := 0 }),
      "Removed " ++ toString s.charts ++ " chart(s) from " ++ s.name)

/-- Source createSheet (Code.gs lines 541 to 550): reuse-by-name-and-
clear when the name exists, otherwise a new empty sheet is inserted. -/
def createSheet (wb : Workbook) (name : String) : Except String (Workbook × String) :=
  match getSheetByName wb name with
  | some _ =>
    .ok (updateSheet wb name (fun s => { s with grid := [] }),
      "Cleared existing sheet " ++ sq ++ name ++ sq)
  | none =>
    .ok ({ wb with sheets := wb.sheets ++ [{ name := name, grid := [] }] },
      "Created sheet " ++ sq ++ name ++ sq)

/-- Source setFormula (Code.gs lines 561 to 603): writes the formula,
then optionally fills it down. The adjacent-column index refCol is
computed by the source but never used: the fill extent actually comes
from sheet.getLastRow(), evaluated after the formula write. -/
def setFormula (wb : Workbook) (sheetName cell formula : String) (fillDown : Bool) :
    Except String (Workbook × String) :=
  match getSheetByName wb sheetName with
  | none => .ok (wb, "Sheet " ++ sq ++ sheetName ++ sq ++ " not found")
  | some _ =>
    match parseCellRC cell with
    | none => .error ("Range not found: " ++ cell)
    | some p =>
      let wb1 := updateSheet wb sheetName (fun s =>
        { s with grid := setCell s.grid p.1 p.2 formula })
      if fillDown && !(isAutoSpill formula) then
        let wb2 := flush wb1
        match _cellMatch cell with
        | some m =>
          let startRow := m.2
          let colIndex := _letterToColumn m.1
          let _refCol := if colIndex > 1 then colIndex - 1 else colIndex + 1
          let g := ((getSheetByName wb2 sheetName).map Sheet.grid).getD []
          let lastDataRow := lastRowOf g
          if lastDataRow > startRow then
            let numRows := lastDataRow - startRow
            .ok (updateSheet wb2 sheetName (fun s =>
                { s with grid := fillDownCells s.grid startRow colIndex (numRows + 1) formula }),
              "Set formula in " ++ sheetName ++ "!" ++ cell ++ " (filled down)")
          else
            .ok (wb2, "Set formula in " ++ sheetName ++ "!" ++ cell ++ " (filled down)")
        | none =>
          .ok (wb2, "Set formula in " ++ sheetName ++ "!" ++ cell ++ " (filled down)")
      else if fillDown && isAutoSpill formula then
        .ok (wb1, "Set formula in " ++ sheetName ++ "!" ++ cell ++ " (auto-spill, fillDown skipped)")
      else
        .ok (wb1, "Set formula in " ++ sheetName ++ "!" ++ cell)

/-- Source setValues (Code.gs lines 612 to 620): block write into a
range; the host throws when the block shape does not match the range. -/
def setValues (wb : Workbook) (sheetName rangeStr : String)
    (values : List (List String)) : Except String (Workbook × String) :=
  match getSheetByName wb sheetName with
  | none => .ok (wb, "Sheet " ++ sq ++ sheetName ++ sq ++ " not found")
  | some _ =>
    match parseRangeA1 rangeStr with
    | none => .error ("Range not found: " ++ rangeStr)
    | some (r1, c1, r2, c2) =>
      if values.length == r2 + 1 - r1 && values.all (fun row => row.length == c2 + 1 - c1) then
        .ok (updateSheet wb sheetName (fun s =>
            { s with grid := setValuesRect s.grid r1 c1 values }),
          "Set values in " ++ sheetName ++ "!" ++ rangeStr)
      else .error "The number of rows or columns in the data does not match the range"

/-- Source autoFillDown (Code.gs lines 629 to 648): copies a source cell
down to an explicit last row. -/
def autoFillDown (wb : Workbook) (sheetName sourceCell : String) (lastRow : Nat) :
    Except String (Workbook × String) :=
  match getSheetByName wb sheetName with
  | none => .ok (wb, "Sheet " ++ sq ++ sheetName ++ sq ++ " not found")
  | some s =>
    match _cellMatch sourceCell with
    | none => .ok (wb, "Invalid cell reference: " ++ sourceCell)
    | some m =>
      let startRow := m.2
      let colIndex := _letterToColumn m.1
      if lastRow ≤ startRow then .ok (wb, "lastRow must be greater than source row")
      else
        let v := getCell s.grid startRow colIndex
        .ok (updateSheet wb sheetName (fun sh =>
            { sh with grid := fillDownCells sh.grid startRow colIndex (lastRow - startRow + 1) v }),
          "Filled formula from " ++ sourceCell ++ " down to row " ++ toString lastRow)

/-- Source formatRange (Code.gs lines 657 to 698): font and color
options are visual only; the sheet lookup degrades to a message and the
range parse can throw. -/
def formatRange (wb : Workbook) (sheetName rangeStr : String) :
    Except String (Workbook × String) :=
  match getSheetByName wb sheetName with
  | none => .ok (wb, "Sheet " ++ sq ++ sheetName ++ sq ++ " not found")
  | some _ =>
    match parseRangeA1 rangeStr with
    | none => .error ("Range not found: " ++ rangeStr)
    | some _ => .ok (wb, "Formatted " ++ sheetName ++ "!" ++ rangeStr)

/-- Source readRange (Code.gs lines 706 to 719) wrapped in the JSON
stringification the dispatcher applies; the exact JSON text is not
observed by any claim, so a direct rendering of the values stands in
for it. -/
def readRange (wb : Workbook) (sheetName rangeStr : String) :
    Except String (Workbook × String) :=
  match getSheetByName wb sheetName with
  | none => .ok (wb, "Error: Sheet " ++ sq ++ sheetName ++ sq ++ " not found")
  | some s =>
    match parseRangeA1 rangeStr with
    | none => .error ("Range not found: " ++ rangeStr)
    | some (r1, c1, r2, c2) =>
      .ok (wb, "readRange " ++ sheetName ++ "!" ++ rangeStr ++ " = " ++
        toString (rangeValues s.grid r1 c1 r2 c2))

/-- Source _applyNumberFormat: number-format pattern choice is visual
only. -/
def _applyNumberFormat (wb : Workbook) (sheetName rangeStr fmt : String) :
    Except String (Workbook × String) :=
  match _getSheet wb sheetName with
  | .error e => .error e
  | .ok _ =>
  match parseRangeA1 rangeStr with
  | none => .error ("Range not found: " ++ rangeStr)
  | some _ =>
    .ok (wb, "Set number format " ++ sq ++ (if fmt = "" then "number" else fmt) ++ sq ++
      " on " ++ (if sheetName = "" then "active" else sheetName) ++ "!" ++ rangeStr)

/-- Source _setBorders: border drawing is visual only. -/
def _setBorders (wb : Workbook) (sheetName rangeStr style : String) :
    Except String (Workbook × String) :=
  match _getSheet wb sheetName with
  | .error e => .error e
  | .ok _ =>
  match parseRangeA1 rangeStr with
  | none => .error ("Range not found: " ++ rangeStr)
  | some _ =>
    .ok (wb, "Set borders (" ++ (if style = "" then "all" else style) ++ ") on " ++
      (if sheetName = "" then "active" else sheetName) ++ "!" ++ rangeStr)

/-- Source _freeze: frozen panes are visual only; a zero count is falsy
in the message-building step of the source. -/
def _freeze (wb : Workbook) (sheetName : String) (rows columns : Option Nat) :
    Except String (Workbook × String) :=
  match _getSheet wb sheetName with
  | .error e => .error e
  | .ok s =>
  let parts :=
    (match rows with
     | some r => if r ≠ 0 then [toString r ++ " row(s)"] else []
     | none => []) ++
    (match columns with
     | some c => if c ≠ 0 then [toString c ++ " column(s)"] else []
     | none => [])
  .ok (wb, "Froze " ++ (if parts.isEmpty then "nothing" else String.intercalate " and " parts) ++
    " on " ++ s.name)

/-- Source _autoResizeColumns: column widths are visual only; the
columnsAll flag models the string argument all. -/
def _autoResizeColumns (wb : Workbook) (sheetName : String)
    (columnsAll : Bool) (columns : List String) :
    Except String (Workbook × String) :=
  match _getSheet wb sheetName with
  | .error e => .error e
  | .ok s =>
  if columnsAll then
    .ok (wb, "Auto-resized all " ++ toString (lastColOf s.grid) ++ " columns on " ++ s.name)
  else if !columns.isEmpty then
    .ok (wb, "Auto-resized columns " ++ String.intercalate ", " columns ++ " on " ++ s.name)
  else
    .ok (wb, "Invalid columns parameter")

/-- Descending insertion of one element (head is the largest). -/
def insertDesc (x : Nat) : List Nat → List Nat
  | [] => [x]
  | y :: ys => if y ≤ x then x :: y :: ys else y :: insertDesc x ys

/-- The descending numeric sort of the source (rows.sort with comparator
b - a). -/
def sortDesc : List Nat → List Nat
  | [] => []
  | x :: xs => insertDesc x (sortDesc xs)

/-- The batching loop of _deleteRows (Code.gs lines 887 to 898): start
is the top of the current descending run, count its current length; the
run extends while the next row is exactly one below, and each maximal
run is emitted as one (startRow, howMany) delete call. -/
def _batchAux (start count : Nat) : List Nat → List (Nat × Nat)
  | [] => [(start - count + 1, count)]
  | r :: rest =>
    if r = start - count then _batchAux start (count + 1) rest
    else (start - count + 1, count) :: _batchAux r 1 rest

/-- Delete calls issued for a descending-sorted row list, in issue
order. -/
def _batchRuns : List Nat → List (Nat × Nat)
  | [] => []
  | r :: rest => _batchAux r 1 rest

/-- Total of the howMany arguments, the deleted counter of the source. -/
def sumCounts (bs : List (Nat × Nat)) : Nat :=
  (bs.map Prod.snd).sum

/-- Applies the emitted delete calls to the grid in issue order; none
models a host exception on an out-of-bounds call. -/
def applyDeletes : Grid → List (Nat × Nat) → Option Grid
  | g, [] => some g
  | g, b :: bs => (deleteRowsAt g b.1 b.2).bind (fun g2 => applyDeletes g2 bs)

/-- The condition scan of _deleteRows (Code.gs lines 857 to 879): reads
the condition column from row 1 to the last data row and collects the
matching row numbers bottom to top, skipping the header row. -/
def scanConditionRows (s : Sheet) (cond : DeleteCondition) : List Nat :=
  let colIndex := _letterToColumn cond.column.toUpper
  let lastRow := lastRowOf s.grid
  (List.range lastRow).reverse.filterMap (fun r =>
    if r ≥ 1 then
      let cellVal := getCell s.grid (r + 1) colIndex
      let shouldDelete :=
        if cond.empty then cellVal == ""
        else match cond.value with
             | some v => cellVal == v
             | none => false
      if shouldDelete then some (r + 1) else none
    else none)

/-- Source _deleteRows (Code.gs lines 854 to 901): explicit row list or
condition scan, sorted descending, batched into maximal consecutive
runs, each run issued as one ranged delete. -/
def _deleteRows (wb : Workbook) (sheetName : String) (rows : List Nat)
    (condition : Option DeleteCondition) : Except String (Workbook × String) :=
  match _getSheet wb sheetName with
  | .error e => .error e
  | .ok s =>
  let rows2 :=
    match condition with
    | some cond => scanConditionRows s cond
    | none => rows
  if rows2.isEmpty then .ok (wb, "No rows to delete")
  else
    let batches := _batchRuns (sortDesc rows2)
    match applyDeletes s.grid batches with
    | none => .error "Those rows are out of bounds"
    | some g2 =>
      .ok (updateSheet wb s.name (fun sh => { sh with grid := g2 }),
        "Deleted " ++ toString (sumCounts batches) ++ " row(s) from " ++ s.name)

/-- Source _deleteColumns (Code.gs lines 907 to 926): letters to
indices, sorted descending, deleted one by one. -/
def _deleteColumns (wb : Workbook) (sheetName : String) (columns : List String) :
    Except String (Workbook × String) :=
  match _getSheet wb sheetName with
  | .error e => .error e
  | .ok s =>
  if columns.isEmpty then .ok (wb, "Error: No columns to delete")
  else
    let indices := sortDesc (columns.map (fun c => _letterToColumn c.toUpper))
    .ok (updateSheet wb s.name (fun sh => { sh with grid := indices.foldl deleteColAt sh.grid }),
      "Deleted column(s) " ++ String.intercalate ", " columns ++ " from " ++ s.name)

/-- Source _mergeCells: merging is visual only. -/
def _mergeCells (wb : Workbook) (sheetName rangeStr mergeType : String) :
    Except String (Workbook × String) :=
  match _getSheet wb sheetName with
  | .error e => .error e
  | .ok _ =>
  match parseRangeA1 rangeStr with
  | none => .error ("Range not found: " ++ rangeStr)
  | some _ =>
    .ok (wb, (if mergeType = "" then "merge" else mergeType) ++ " cells " ++
      sheetName ++ "!" ++ rangeStr)

/-- Source _clearRange: clears cell contents unless only formatting is
asked for. -/
def _clearRange (wb : Workbook) (sheetName rangeStr clearType : String) :
    Except String (Workbook × String) :=
  match _getSheet wb sheetName with
  | .error e => .error e
  | .ok s =>
  match parseRangeA1 rangeStr with
  | none => .error ("Range not found: " ++ rangeStr)
  | some (r1, c1, r2, c2) =>
    let wb2 :=
      if clearType = "formatting" then wb
      else updateSheet wb s.name (fun sh => { sh with grid := clearRect sh.grid r1 c1 r2 c2 })
    .ok (wb2, "Cleared " ++ (if clearType = "" then "all" else clearType) ++ " from " ++
      sheetName ++ "!" ++ rangeStr)

/-- Source _copyRange: copies a block of values between sheets (the
valuesOnly flag only switches off format copying, which is visual). -/
def _copyRange (wb : Workbook) (srcSheetName srcRangeStr destSheetName destCellStr : String)
    (_valuesOnly : Bool) : Except String (Workbook × String) :=
  match getSheetByName wb srcSheetName with
  | none => .ok (wb, "Source sheet not found: " ++ srcSheetName)
  | some src =>
    match getSheetByName wb destSheetName with
    | none => .ok (wb, "Destination sheet not found: " ++ destSheetName)
    | some _ =>
      match parseRangeA1 srcRangeStr, parseCellRC destCellStr with
      | some (r1, c1, r2, c2), some d =>
        .ok (updateSheet wb destSheetName (fun sh =>
            { sh with grid := setValuesRect sh.grid d.1 d.2 (rangeValues src.grid r1 c1 r2 c2) }),
          "Copied " ++ srcSheetName ++ "!" ++ srcRangeStr ++ " to " ++
            destSheetName ++ "!" ++ destCellStr)
      | _, _ => .error "Range not found"

/-- Source _conditionalFormat: rules are visual only; an unknown
comparison operator is reported as a message. -/
def _conditionalFormat (wb : Workbook) (sheetName rangeStr ruleType op : String) :
    Except String (Workbook × String) :=
  match _getSheet wb sheetName with
  | .error e => .error e
  | .ok _ =>
  match parseRangeA1 rangeStr with
  | none => .error ("Range not found: " ++ rangeStr)
  | some _ =>
    let t := if ruleType = "" then "comparison" else ruleType
    if t = "colorScale" then
      .ok (wb, "Added color scale rule on " ++ sheetName ++ "!" ++ rangeStr)
    else if t = "comparison" then
      let o := if op = "" then "greaterThan" else op
      if o ∈ ["greaterThan", "lessThan", "equalTo", "greaterThanOrEqualTo",
              "lessThanOrEqualTo", "notEqualTo", "between"] then
        .ok (wb, "Added conditional format rule on " ++ sheetName ++ "!" ++ rangeStr)
      else .ok (wb, "Unknown operator: " ++ o)
    else
      .ok (wb, "Added conditional format rule on " ++ sheetName ++ "!" ++ rangeStr)

/-- Source _setDataValidation: validation rules are visual only. -/
def _setDataValidation (wb : Workbook) (sheetName rangeStr validationType : String) :
    Except String (Workbook × String) :=
  match _getSheet wb sheetName with
  | .error e => .error e
  | .ok _ =>
  match parseRangeA1 rangeStr with
  | none => .error ("Range not found: " ++ rangeStr)
  | some _ =>
    .ok (wb, "Set data validation (" ++
      (if validationType = "" then "list" else validationType) ++ ") on " ++
      sheetName ++ "!" ++ rangeStr)

/-- Source _renameSheet (Code.gs lines 1123 to 1129). -/
def _renameSheet (wb : Workbook) (oldName newName : String) :
    Except String (Workbook × String) :=
  match getSheetByName wb oldName with
  | none => .ok (wb, "Sheet not found: " ++ oldName)
  | some _ =>
    .ok (updateSheet wb oldName (fun s => { s with name := newName }),
      "Renamed sheet " ++ sq ++ oldName ++ sq ++ " to " ++ sq ++ newName ++ sq)

/-- Source _copySheet (Code.gs lines 1134 to 1141): duplicates the sheet
under the new name. -/
def _copySheet (wb : Workbook) (sourceName newName : String) :
    Except String (Workbook × String) :=
  match getSheetByName wb sourceName with
  | none => .ok (wb, "Sheet not found: " ++ sourceName)
  | some s =>
    .ok ({ wb with sheets := wb.sheets ++ [{ s with name := newName }] },
      "Copied sheet " ++ sq ++ sourceName ++ sq ++ " as " ++ sq ++ newName ++ sq)

/-- Source _deleteSheet (Code.gs lines 1146 to 1153): guards against
deleting the last remaining sheet. -/
def _deleteSheet (wb : Workbook) (name : String) :
    Except String (Workbook × String) :=
  match getSheetByName wb name with
  | none => .ok (wb, "Sheet not found: " ++ name)
  | some _ =>
    if wb.sheets.length ≤ 1 then .ok (wb, "Cannot delete the last sheet")
    else
      .ok ({ wb with sheets := wb.sheets.eraseP (fun x => x.name == name) },
        "Deleted sheet " ++ sq ++ name ++ sq)

/-- Occurrences of a pattern in a character list (left to right; the
non-overlap of the host replacement engine is not observed by any
claim). -/
def countOccs : List Char → List Char → Nat
  | [], _ => 0
  | c :: rest, pat => (if pat.isPrefixOf (c :: rest) then 1 else 0) + countOccs rest pat

/-- Source _findReplace: text replacement over a range or the data
range; the host TextFinder defaults to case-insensitive matching, which
no verified claim observes, so the model matches case-sensitively. -/
def _findReplace (wb : Workbook) (sheetName findText replaceText rangeStr : String)
    (_matchCase : Bool) : Except String (Workbook × String) :=
  match _getSheet wb sheetName with
  | .error e => .error e
  | .ok s =>
    match (if rangeStr ≠ "" then parseRangeA1 rangeStr
           else some (1, 1, max (lastRowOf s.grid) 1, max (lastColOf s.grid) 1)) with
    | none => .error ("Range not found: " ++ rangeStr)
    | some rect =>
      let inRect := fun (r c : Nat) =>
        decide (rect.1 ≤ r ∧ r ≤ rect.2.2.1 ∧ rect.2.1 ≤ c ∧ c ≤ rect.2.2.2)
      let count := (List.range s.grid.length).foldl (fun acc i =>
        (List.range (((s.grid.get? i).getD []).length)).foldl (fun acc2 j =>
          if inRect (i + 1) (j + 1) then
            acc2 + countOccs (getCell s.grid (i + 1) (j + 1)).toList findText.toList
          else acc2) acc) 0
      let wb2 := updateSheet wb s.name (fun sh =>
        { sh with grid := sh.grid.enum.map (fun p =>
            p.2.enum.map (fun q =>
              if inRect (p.1 + 1) (q.1 + 1) then q.2.replace findText replaceText else q.2)) })
      .ok (wb2, "Replaced " ++ toString count ++ " occurrence(s) of " ++ sq ++ findText ++ sq ++
        " with " ++ sq ++ replaceText ++ sq ++ " in " ++ s.name)

/-- The tags the switch of executeSheetAction recognizes, in source
order. -/
def recognizedActionTags : List String :=
  ["filter", "sort", "highlight", "setValue", "insertColumn", "chart", "createChart",
   "createSheet", "setFormula", "setValues", "autoFillDown", "formatRange", "readRange",
   "deleteCharts", "numberFormat", "setBorders", "freeze", "autoResize", "deleteRows",
   "deleteColumns", "mergeCells", "clearRange", "copyRange", "conditionalFormat",
   "dataValidation", "renameSheet", "copySheet", "deleteSheet", "findReplace"]

/-- Source executeSheetAction (Code.gs lines 180 to 260): the dispatcher
switch over the action tag, with the argument defaulting the source
applies at each call site; an unrecognized tag reaches the default case
and returns the unknown-action message without touching the workbook. -/
def executeSheetAction (wb : Workbook) (a : Action) : Except String (Workbook × String) :=
  if a.action = "" then .ok (wb, "No action provided")
  else if a.action = "filter" then _applyFilter wb a.column a.criteria
  else if a.action = "sort" then _applySort wb a.column a.ascending
  else if a.action = "highlight" then
    _applyHighlight wb a.range (if a.color = "" then "#FFFF00" else a.color)
  else if a.action = "setValue" then _setCellValue wb a.cell a.value
  else if a.action = "insertColumn" then _insertColumn wb a.after a.header
  else if a.action = "chart" then
    _createChart wb (if a.type = "" then "BAR" else a.type) a.dataRange a.title
  else if a.action = "createChart" then
    let chartType := if a.chartType ≠ "" then a.chartType
                     else if a.type ≠ "" then a.type else "bar"
    let chartSheet := if a.dataSheet ≠ "" then a.dataSheet else a.sheet
    let chartTitle := if a.title = "" then "Chart" else a.title
    if a.range ≠ "" ∧ a.labelColumn = "" then
      _createChartOnSheet wb chartType chartTitle chartSheet a.range
    else
      _createChartFromColumns wb chartType chartTitle chartSheet
        a.labelColumn a.valueColumn a.startRow a.endRow
  else if a.action = "createSheet" then createSheet wb a.name
  else if a.action = "setFormula" then setFormula wb a.sheet a.cell a.formula a.fillDown
  else if a.action = "setValues" then setValues wb a.sheet a.range a.values
  else if a.action = "autoFillDown" then autoFillDown wb a.sheet a.sourceCell a.lastRow
  else if a.action = "formatRange" then formatRange wb a.sheet a.range
  else if a.action = "readRange" then readRange wb a.sheet a.range
  else if a.action = "deleteCharts" then _deleteChartsOnSheet wb a.sheet
  else if a.action = "numberFormat" then _applyNumberFormat wb a.sheet a.range a.format
  else if a.action = "setBorders" then _setBorders wb a.sheet a.range a.borderStyle
  else if a.action = "freeze" then _freeze wb a.sheet a.freezeRows a.freezeColumns
  else if a.action = "autoResize" then _autoResizeColumns wb a.sheet a.columnsAll a.columns
  else if a.action = "deleteRows" then _deleteRows wb a.sheet a.rows a.condition
  else if a.action = "deleteColumns" then _deleteColumns wb a.sheet a.columns
  else if a.action = "mergeCells" then _mergeCells wb a.sheet a.range a.type
  else if a.action = "clearRange" then _clearRange wb a.sheet a.range a.type
  else if a.action = "copyRange" then
    _copyRange wb a.sourceSheet a.sourceRange a.destSheet a.destCell a.valuesOnly
  else if a.action = "conditionalFormat" then
    _conditionalFormat wb a.sheet a.range a.type a.operator
  else if a.action = "dataValidation" then _setDataValidation wb a.sheet a.range a.type
  else if a.action = "renameSheet" then _renameSheet wb a.oldName a.newName
  else if a.action = "copySheet" then _copySheet wb a.source a.newName
  else if a.action = "deleteSheet" then _deleteSheet wb a.name
  else if a.action = "findReplace" then
    _findReplace wb a.sheet a.find a.replace a.range a.matchCase
  else .ok (wb, "Unknown action: " ++ a.action)

/-- One line of the Execution Report (the objects executeStepPlan
pushes). -/
structure ReportEntry where
  step : Nat
  status : String
  result : String
deriving Repr, DecidableEq, Inhabited

/-- The loop body of executeStepPlan (Code.gs lines 1177 to 1201),
carrying the 1-based number of the next step: a successful dispatch
appends a done entry and continues after a flush, a thrown dispatch
appends an error entry and stops. The source also accepts steps wrapped
as objects with step and action fields and renumbers missing step
numbers to i + 1; the model takes the actions directly with that
numbering. -/
def executeStepPlanAux (wb : Workbook) (steps : List Action) (k : Nat) :
    Workbook × List ReportEntry :=
  match steps with
  | [] => (wb, [])
  | a :: rest =>
    match executeSheetAction wb a with
    | .ok p =>
      let r := executeStepPlanAux (flush p.1) rest (k + 1)
      (r.1, { step := k, status := "done", result := p.2 } :: r.2)
    | .error e => (wb, [{ step := k, status := "error", result := "Error: " ++ e }])

/-- Source executeStepPlan: runs the plan from step 1. -/
def executeStepPlan (wb : Workbook) (steps : List Action) :
    Workbook × List ReportEntry :=
  executeStepPlanAux wb steps 1

/-- True when dispatching the action returns normally (no exception). -/
def dispatchOk (wb : Workbook) (a : Action) : Bool :=
  match executeSheetAction wb a with
  | .ok _ => true
  | .error _ => false

/-- The workbook after dispatching one action, unchanged on a thrown
dispatch. -/
def applyStep (wb : Workbook) (a : Action) : Workbook :=
  match executeSheetAction wb a with
  | .ok p => p.1
  | .error _ => wb

/-- The workbook the executor holds before the 0-based step j, when the
first j dispatches return normally. -/
def stateBefore (wb : Workbook) : List Action → Nat → Workbook
  | _, 0 => wb
  | [], _ + 1 => wb
  | a :: rest, j + 1 => stateBefore (applyStep wb a) rest j

/-- One entry of the cellsToClear list of the Undo Ledger. -/
structure ClearEntry where
  sheet : String
  range : String
deriving Repr, DecidableEq, Inhabited

/-- The Undo Ledger as undoSheetActions receives it; absent JSON lists
default to empty. -/
structure UndoInfo where
  sheetsToDelete : List String := []
  cellsToClear : List ClearEntry := []
deriving Repr, DecidableEq, Inhabited

/-- One iteration of the sheet-deletion loop of undoSheetActions
(Code.gs lines 1222 to 1233): a missing sheet is skipped silently, the
last remaining sheet is kept with a cannot-delete message, otherwise the
sheet is deleted and reported. -/
def undoDeleteStep (acc : Workbook × List String) (nm : String) :
    Workbook × List String :=
  match getSheetByName acc.1 nm with
  | none => acc
  | some _ =>
    if acc.1.sheets.length > 1 then
      ({ acc.1 with sheets := acc.1.sheets.eraseP (fun x => x.name == nm) },
        acc.2 ++ ["Deleted sheet " ++ sq ++ nm ++ sq])
    else
      (acc.1, acc.2 ++ ["Cannot delete " ++ sq ++ nm ++ sq ++ " (last sheet)"])

/-- The cell-clearing loop of undoSheetActions (Code.gs lines 1236 to
1244): a missing sheet is skipped silently; getRange on a malformed
range string throws out of the whole call. -/
def undoClears (wb : Workbook) (res : List String) :
    List ClearEntry → Except String (Workbook × List String)
  | [] => .ok (wb, res)
  | e :: rest =>
    match getSheetByName wb e.sheet with
    | none => undoClears wb res rest
    | some _ =>
      match parseRangeA1 e.range with
      | none => .error ("Range not found: " ++ e.range)
      | some (r1, c1, r2, c2) =>
        undoClears
          (updateSheet wb e.sheet (fun sh => { sh with grid := clearRect sh.grid r1 c1 r2 c2 }))
          (res ++ ["Cleared " ++ e.sheet ++ "!" ++ e.range]) rest

/-- Both loops of undoSheetActions, returning the workbook and the
results list before it is joined. -/
def undoCore (wb : Workbook) (info : UndoInfo) :
    Except String (Workbook × List String) :=
  let d := info.sheetsToDelete.foldl undoDeleteStep (wb, [])
  undoClears d.1 d.2 info.cellsToClear

/-- Source undoSheetActions (Code.gs lines 1214 to 1248): none models a
missing undoInfo argument. -/
def undoSheetActions (wb : Workbook) (undoInfo : Option UndoInfo) :
    Except String (Workbook × String) :=
  match undoInfo with
  | none => .ok (wb, "Nothing to undo")
  | some info =>
    (undoCore wb info).map (fun p =>
      (p.1, if p.2.isEmpty then "Nothing to undo" else String.intercalate "; " p.2))

/-- Row ceiling of the Payload Guard (Code.gs line 62). -/
def MAX_ROWS : Nat := 2000

/-- Cell-count ceiling of the Payload Guard (Code.gs line 135). -/
def MAX_CELLS : Nat := 50000

/-- The payload _readSheetData returns to the sidebar; the live
selection fields of the source (selectedRange, selectedValues) belong to
the UI session, not to the engine state, and are omitted. -/
structure SheetPayload where
  sheetName : String
  dataRange : String
  cells : List (String × String)
  totalRows : Nat
  totalColumns : Nat
  truncated : Bool
  truncatedReason : Option String := none
  cellCount : Option Nat := none
deriving Repr, DecidableEq, Inhabited

/-- The cell map loop of _readSheetData (Code.gs lines 117 to 126): one
key-value pair per non-empty cell of the first rowsToRead rows, keyed by
column letter and row number. -/
def readCellsMap (g : Grid) (rowsToRead numCols : Nat) : List (String × String) :=
  (List.range rowsToRead).flatMap (fun r =>
    (List.range numCols).filterMap (fun c =>
      let v := getCell g (r + 1) (c + 1)
      if v = "" then none
      else some (_colLetter (c + 1) ++ toString (r + 1), v)))

/-- Source _readSheetData (Code.gs lines 101 to 161): reads at most
MAX_ROWS rows of the data range, builds the full cell map, counts it,
and if the count exceeds MAX_CELLS returns the truncated payload with an
empty map instead of the built one. -/
def _readSheetData (s : Sheet) : SheetPayload :=
  let numRows := max (lastRowOf s.grid) 1
  let numCols := max (lastColOf s.grid) 1
  let rowsToRead := min numRows MAX_ROWS
  let cells := readCellsMap s.grid rowsToRead numCols
  let cellCount := cells.length
  if cellCount > MAX_CELLS then
    { sheetName := s.name
      dataRange := dataRangeA1 numRows numCols
      cells := []
      totalRows := numRows
      totalColumns := numCols
      truncated := true
      truncatedReason := some ("Sheet has " ++ toString cellCount ++ " cells (max " ++
        toString MAX_CELLS ++ "). Please select a smaller range.")
      cellCount := some cellCount }
  else
    { sheetName := s.name
      dataRange := dataRangeA1 numRows numCols
      cells := cells
      totalRows := numRows
      totalColumns := numCols
      truncated := decide (numRows > MAX_ROWS) }

/-- Source getSheetData: reads the active sheet. -/
def getSheetData (wb : Workbook) : Option SheetPayload :=
  (getActiveSheet wb).map _readSheetData

/-- Source getSheetDataByName: reads a named sheet, degrading to none
for the error object of the source when the sheet is missing. -/
def getSheetDataByName (wb : Workbook) (sheetName : String) : Option SheetPayload :=
  (if sheetName = "" then getActiveSheet wb else getSheetByName wb sheetName).map _readSheetData

/-- C7: an action object whose tag is present but not one of the
recognized kinds reaches the default case of the dispatcher: the result
is the explicit unknown-action message, no handler runs, and the
workbook is returned unchanged. -/
theorem executeSheetAction_unknown_tag (wb : Workbook) (a : Action)
    (hne : a.action ≠ "") (hunk : a.action ∉ recognizedActionTags) :
    executeSheetAction wb a = .ok (wb, "Unknown action: " ++ a.action) := by
  simp only [recognizedActionTags, List.mem_cons, List.not_mem_nil, or_false] at hunk
  push_neg at hunk
  obtain ⟨h1, h2, h3, h4, h5, h6, h7, h8, h9, h10, h11, h12, h13, h14, h15, h16, h17,
    h18, h19, h20, h21, h22, h23, h24, h25, h26, h27, h28, h29⟩ := hunk
  simp [executeSheetAction, hne, h1, h2, h3, h4, h5, h6, h7, h8, h9, h10, h11, h12, h13,
    h14, h15, h16, h17, h18, h19, h20, h21, h22, h23, h24, h25, h26, h27, h28, h29]

/-- C7 witness: the unrecognized tag explodeSheet on a one-sheet
workbook. -/
theorem executeSheetAction_unknown_tag_witness :
    executeSheetAction ⟨[⟨"Data", [["x"]], 0⟩], 0⟩ { action := "explodeSheet" } =
      .ok (⟨[⟨"Data", [["x"]], 0⟩], 0⟩, "Unknown action: explodeSheet") :=
  executeSheetAction_unknown_tag ⟨[⟨"Data", [["x"]], 0⟩], 0⟩ { action := "explodeSheet" }
    (by decide) (by decide)

/-- C4: when fillDown is requested and the formula is classified
auto-spill, setFormula still writes the formula into the target cell,
performs no copy-down (the resulting workbook is exactly the single-cell
update), returns normally, and its message says the fill-down was
skipped because of auto-spill. -/
theorem setFormula_autoSpill_skips_fillDown (wb : Workbook)
    (sheetName cell formula : String) (s : Sheet) (p : Nat × Nat)
    (hs : getSheetByName wb sheetName = some s)
    (hcell : parseCellRC cell = some p)
    (hspill : isAutoSpill formula = true) :
    setFormula wb sheetName cell formula true =
      .ok (updateSheet wb sheetName (fun sh => { sh with grid := setCell sh.grid p.1 p.2 formula }),
        "Set formula in " ++ sheetName ++ "!" ++ cell ++ " (auto-spill, fillDown skipped)") := by
  unfold setFormula
  rw [hs, hcell]
  simp [hspill]

/-- C4 witness: a UNIQUE formula with fillDown on a two-row sheet is
written to B2 only, with the skip message. -/
theorem setFormula_autoSpill_skips_fillDown_witness :
    setFormula ⟨[⟨"Report", [["h"], ["a"]], 0⟩], 0⟩ "Report" "B2" "=UNIQUE(A2:A100)" true =
      .ok (⟨[⟨"Report", [["h"], ["a", "=UNIQUE(A2:A100)"]], 0⟩], 0⟩,
        "Set formula in Report!B2 (auto-spill, fillDown skipped)") := by
  have h := setFormula_autoSpill_skips_fillDown ⟨[⟨"Report", [["h"], ["a"]], 0⟩], 0⟩
    "Report" "B2" "=UNIQUE(A2:A100)" ⟨"Report", [["h"], ["a"]], 0⟩ (2, 2)
    rfl rfl (by decide)
  rw [h]
  rfl

/-- Twenty-row fixture for the fill-down extent check: the column
adjacent to the formula column B is column A, populated through row 11,
while column C is populated through row 20; the sheet-wide last row is
therefore 20. -/
def gridC2 : Grid :=
  (List.range 20).map (fun i => if i < 11 then ["a", "", "c"] else ["", "", "c"])

/-- Workbook around the fixture grid. -/
def wbC2 : Workbook := ⟨[⟨"Report", gridC2, 0⟩], 0⟩

/-- C2: evaluation of the code at the failing input. The comment of the
source (and the specification) say the fill extent comes from the last
populated row of the adjacent column, which is 11 here, so rows 12..20
of column B should stay empty; the code computes the adjacent column
index into refCol, never reads it, and fills down to
sheet.getLastRow() = 20 instead: cells B12 and B20 receive the formula. -/
theorem setFormula_fillDown_ignores_adjacent_column :
    colLastPopulatedRow gridC2 1 = 11
    ∧ lastRowOf gridC2 = 20
    ∧ ((setFormula wbC2 "Report" "B2" "=SUMIF(Sheet1!A:A,A2,Sheet1!B:B)" true).toOption.map
        (fun p => (getCell ((getSheetByName p.1 "Report").getD default).grid 12 2,
                   getCell ((getSheetByName p.1 "Report").getD default).grid 20 2)))
      = some ("=SUMIF(Sheet1!A:A,A2,Sheet1!B:B)", "=SUMIF(Sheet1!A:A,A2,Sheet1!B:B)") := by
  refine ⟨by decide, by decide, by decide⟩

/-- Descending insertion permutes one element into place. -/
lemma perm_insertDesc (x : Nat) (l : List Nat) : List.Perm (insertDesc x l) (x :: l) := by
  induction l with
  | nil => simp [insertDesc]
  | cons y ys ih =>
    by_cases h : y ≤ x
    · simp [insertDesc, h]
    · simp only [insertDesc, h, if_false]
      exact (ih.cons y).trans (List.Perm.swap x y ys)

/-- Descending insertion keeps the list sorted in descending order. -/
lemma sortedDesc_insertDesc {x : Nat} {l : List Nat}
    (h : List.Pairwise (fun a b => b ≤ a) l) :
    List.Pairwise (fun a b => b ≤ a) (insertDesc x l) := by
  induction l with
  | nil => simp [insertDesc]
  | cons y ys ih =>
    rw [List.pairwise_cons] at h
    by_cases hle : y ≤ x
    · simp only [insertDesc, hle, if_true]
      rw [List.pairwise_cons]
      refine ⟨fun b hb => ?_, ?_⟩
      · rcases List.mem_cons.mp hb with rfl | hbys
        · exact hle
        · exact le_trans (h.1 b hbys) hle
      · rw [List.pairwise_cons]
        exact h
    · simp only [insertDesc, hle, if_false]
      rw [List.pairwise_cons]
      refine ⟨fun b hb => ?_, ih h.2⟩
      have hb2 : b ∈ x :: ys := (perm_insertDesc x ys).mem_iff.mp hb
      rcases List.mem_cons.mp hb2 with rfl | hbys
      · exact le_of_not_le hle
      · exact h.1 b hbys

/-- The descending sort is a permutation of its input. -/
lemma perm_sortDesc (l : List Nat) : List.Perm (sortDesc l) l := by
  induction l with
  | nil => simp [sortDesc]
  | cons x xs ih => exact (perm_insertDesc x (sortDesc xs)).trans (ih.cons x)

/-- The descending sort is sorted in descending order. -/
lemma sortedDesc_sortDesc (l : List Nat) :
    List.Pairwise (fun a b => b ≤ a) (sortDesc l) := by
  induction l with
  | nil => simp [sortDesc]
  | cons x xs ih => exact sortedDesc_insertDesc ih

/-- A descending-sorted list without duplicates is strictly descending. -/
lemma pairwise_lt_of_ge_nodup : ∀ {l : List Nat},
    List.Pairwise (fun a b => b ≤ a) l → l.Nodup →
    List.Pairwise (fun a b => b < a) l := by
  intro l
  induction l with
  | nil => intro _ _; exact List.Pairwise.nil
  | cons x xs ih =>
    intro hge hnd
    rw [List.pairwise_cons] at hge ⊢
    rw [List.nodup_cons] at hnd
    refine ⟨fun b hb => lt_of_le_of_ne (hge.1 b hb) fun heq => hnd.1 (heq ▸ hb), ih hge.2 hnd.2⟩

/-- Row numbers covered by the emitted delete calls, in the order the
source visits them (each ranged call covers a descending run). -/
def expandBatches (bs : List (Nat × Nat)) : List Nat :=
  bs.flatMap (fun b => (List.range' b.1 b.2).reverse)

/-- The covered row count equals the deleted counter of the source. -/
lemma length_expandBatches (bs : List (Nat × Nat)) :
    (expandBatches bs).length = sumCounts bs := by
  induction bs with
  | nil => rfl
  | cons b bs ih =>
    simp only [expandBatches, List.flatMap_cons, List.length_append, List.length_reverse,
      List.length_range'] at *
    simp only [sumCounts, List.map_cons, List.sum_cons] at *
    omega

/-- The batching loop covers exactly its input rows, in order. -/
lemma expand_batchAux (rest : List Nat) : ∀ start count, 1 ≤ count → count ≤ start →
    (∀ x ∈ rest, 1 ≤ x) →
    expandBatches (_batchAux start count rest) =
      (List.range' (start - count + 1) count).reverse ++ rest := by
  induction rest with
  | nil =>
    intro start count _ _ _
    simp [_batchAux, expandBatches]
  | cons r rest ih =>
    intro start count h1 h2 hpos
    have hrpos : 1 ≤ r := hpos r (List.mem_cons_self r rest)
    have hpos2 : ∀ x ∈ rest, 1 ≤ x := fun x hx => hpos x (List.mem_cons_of_mem r hx)
    by_cases hr : r = start - count
    · simp only [_batchAux, hr, if_true]
      rw [ih start (count + 1) (by omega) (by omega) hpos2]
      have hstep : start - (count + 1) + 1 = start - count := by omega
      rw [hstep, List.range'_succ]
      simp [hr, List.append_assoc]
    · simp only [_batchAux, hr, if_false]
      rw [expandBatches, List.flatMap_cons, ← expandBatches,
        ih r 1 le_rfl hrpos hpos2]
      have hone : r - 1 + 1 = r := by omega
      rw [hone, List.range'_succ]
      simp

/-- Shape of the batching loop output on a strictly descending row list:
it is non-empty, its first call tops out at start, consecutive calls are
separated by a gap (the next high end is strictly below the previous low
end minus one, so every emitted run is maximal and the calls are issued
in strictly descending order), and every call has a positive start row
and count. -/
lemma batchAux_shape (rest : List Nat) : ∀ start count, 1 ≤ count → count ≤ start →
    List.Pairwise (fun a b => b < a) rest →
    (∀ x ∈ rest, 1 ≤ x) →
    (∀ x ∈ rest, x ≤ start - count) →
    ∃ b0 bs, _batchAux start count rest = b0 :: bs
      ∧ b0.1 + b0.2 = start + 1
      ∧ List.Chain' (fun x y => y.1 + y.2 < x.1) (b0 :: bs)
      ∧ ∀ b ∈ b0 :: bs, 1 ≤ b.1 ∧ 1 ≤ b.2 := by
  induction rest with
  | nil =>
    intro start count h1 h2 _ _ _
    refine ⟨(start - count + 1, count), [], by simp [_batchAux],
      by show start - count + 1 + count = start + 1; omega, ?_, ?_⟩
    · simp
    · intro b hb
      rcases List.mem_cons.mp hb with rfl | h
      · exact ⟨by show 1 ≤ start - count + 1; omega, by show 1 ≤ count; omega⟩
      · simp at h
  | cons r rest ih =>
    intro start count h1 h2 hpw hpos hub
    have hrpos : 1 ≤ r := hpos r (List.mem_cons_self r rest)
    have hrub : r ≤ start - count := hub r (List.mem_cons_self r rest)
    rw [List.pairwise_cons] at hpw
    have hpos2 : ∀ x ∈ rest, 1 ≤ x := fun x hx => hpos x (List.mem_cons_of_mem r hx)
    by_cases hr : r = start - count
    · have hstep := ih start (count + 1) (by omega) (by omega) hpw.2 hpos2
        (fun x hx => by have := hpw.1 x hx; omega)
      obtain ⟨b0, bs, heq, hhigh, hchain, hposb⟩ := hstep
      exact ⟨b0, bs, by simp only [_batchAux, hr, if_true]; exact heq, hhigh, hchain, hposb⟩
    · have hstep := ih r 1 le_rfl hrpos hpw.2 hpos2
        (fun x hx => by have := hpw.1 x hx; omega)
      obtain ⟨b0, bs, heq, hhigh, hchain, hposb⟩ := hstep
      refine ⟨(start - count + 1, count), b0 :: bs, ?_,
        by show start - count + 1 + count = start + 1; omega, ?_, ?_⟩
      · simp only [_batchAux, hr, if_false, heq]
      · rw [List.chain'_cons]
        refine ⟨?_, hchain⟩
        show b0.1 + b0.2 < start - count + 1
        omega
      · intro b hb
        rcases List.mem_cons.mp hb with rfl | h
        · exact ⟨by show 1 ≤ start - count + 1; omega, by show 1 ≤ count; omega⟩
        · exact hposb b h

/-- Applying gap-separated descending delete calls succeeds and removes
exactly the covered number of rows. -/
lemma applyDeletes_length : ∀ (bs : List (Nat × Nat)) (g : Grid),
    List.Chain' (fun x y => y.1 + y.2 < x.1) bs →
    (∀ b ∈ bs, 1 ≤ b.1 ∧ 1 ≤ b.2) →
    (∀ b0 ∈ bs.head?, b0.1 + b0.2 ≤ g.length + 1) →
    ∃ g2, applyDeletes g bs = some g2 ∧ g2.length = g.length - sumCounts bs := by
  intro bs
  induction bs with
  | nil =>
    intro g _ _ _
    exact ⟨g, rfl, by simp [sumCounts]⟩
  | cons b bs ih =>
    intro g hchain hpos hhead
    have hb := hpos b (List.mem_cons_self b bs)
    have hbd : b.1 + b.2 ≤ g.length + 1 := hhead b (by simp)
    have hdel : deleteRowsAt g b.1 b.2 =
        some (g.take (b.1 - 1) ++ g.drop (b.1 - 1 + b.2)) := by
      unfold deleteRowsAt
      rw [if_pos (show 1 ≤ b.1 ∧ 1 ≤ b.2 ∧ b.1 + b.2 - 1 ≤ g.length from ⟨hb.1, hb.2, by omega⟩)]
    have hlen1 : (g.take (b.1 - 1) ++ g.drop (b.1 - 1 + b.2)).length = g.length - b.2 := by
      simp [List.length_take, List.length_drop]
      omega
    rw [List.chain'_cons'] at hchain
    have hrec := ih (g.take (b.1 - 1) ++ g.drop (b.1 - 1 + b.2)) hchain.2
      (fun x hx => hpos x (List.mem_cons_of_mem b hx))
      (fun b0 hb0 => by
        have := hchain.1 b0 hb0
        rw [hlen1]
        omega)
    obtain ⟨g2, happ, hlen2⟩ := hrec
    refine ⟨g2, ?_, ?_⟩
    · simp only [applyDeletes, hdel, Option.some_bind]
      exact happ
    · rw [hlen1] at hlen2
      simp only [sumCounts, List.map_cons, List.sum_cons] at hlen2 ⊢
      omega

/-- C3: _deleteRows with a non-empty duplicate-free row set inside the
sheet bounds issues one ranged delete per maximal consecutive run (the
emitted calls are non-overlapping, non-adjacent and strictly descending,
and together cover exactly the row set), every call succeeds, and the
sheet afterwards has exactly the original row count minus the number of
deleted rows. -/
theorem deleteRows_descending_batched (wb : Workbook) (sheetName : String)
    (rows : List Nat) (s : Sheet)
    (hname : sheetName ≠ "")
    (hfind : getSheetByName wb sheetName = some s)
    (hne : rows ≠ [])
    (hnd : rows.Nodup)
    (hub : ∀ r ∈ rows, 1 ≤ r ∧ r ≤ s.grid.length) :
    ∃ g2, applyDeletes s.grid (_batchRuns (sortDesc rows)) = some g2
      ∧ _deleteRows wb sheetName rows none =
          .ok (updateSheet wb s.name (fun sh => { sh with grid := g2 }),
            "Deleted " ++ toString rows.length ++ " row(s) from " ++ s.name)
      ∧ g2.length = s.grid.length - rows.length
      ∧ List.Chain' (fun x y => y.1 + y.2 < x.1) (_batchRuns (sortDesc rows))
      ∧ (∀ b ∈ _batchRuns (sortDesc rows), 1 ≤ b.1 ∧ 1 ≤ b.2)
      ∧ List.Perm (expandBatches (_batchRuns (sortDesc rows))) rows := by
  have hperm := perm_sortDesc rows
  have hsorted := sortedDesc_sortDesc rows
  have hnd2 : (sortDesc rows).Nodup := hperm.nodup_iff.mpr hnd
  have hstrict := pairwise_lt_of_ge_nodup hsorted hnd2
  have hub2 : ∀ r ∈ sortDesc rows, 1 ≤ r ∧ r ≤ s.grid.length :=
    fun r hr => hub r (hperm.mem_iff.mp hr)
  have hni : rows.isEmpty = false := by
    cases rows with
    | nil => exact absurd rfl hne
    | cons a l => rfl
  cases hsd : sortDesc rows with
  | nil =>
    exfalso
    have hlen := hperm.length_eq
    rw [hsd] at hlen
    exact hne (List.eq_nil_of_length_eq_zero hlen.symm)
  | cons r rest =>
    rw [← hsd]
    rw [hsd] at hstrict hub2
    rw [List.pairwise_cons] at hstrict
    have hr1 : 1 ≤ r := (hub2 r (List.mem_cons_self r rest)).1
    have hrlen : r ≤ s.grid.length := (hub2 r (List.mem_cons_self r rest)).2
    have hposrest : ∀ x ∈ rest, 1 ≤ x :=
      fun x hx => (hub2 x (List.mem_cons_of_mem r hx)).1
    obtain ⟨b0, bs, heq, hhigh, hchain, hposb⟩ :=
      batchAux_shape rest r 1 le_rfl hr1 hstrict.2 hposrest
        (fun x hx => by have := hstrict.1 x hx; omega)
    have hbatch : _batchRuns (sortDesc rows) = b0 :: bs := by
      rw [hsd]
      exact heq
    have hcov : expandBatches (_batchRuns (sortDesc rows)) = sortDesc rows := by
      rw [hsd]
      show expandBatches (_batchAux r 1 rest) = r :: rest
      rw [expand_batchAux rest r 1 le_rfl hr1 hposrest]
      have hone : r - 1 + 1 = r := by omega
      rw [hone, List.range'_succ]
      simp
    have hsum : sumCounts (_batchRuns (sortDesc rows)) = rows.length := by
      rw [← length_expandBatches, hcov]
      exact hperm.length_eq
    obtain ⟨g2, happ, hlen⟩ := applyDeletes_length (_batchRuns (sortDesc rows)) s.grid
      (by rw [hbatch]; exact hchain)
      (by rw [hbatch]; exact hposb)
      (by
        rw [hbatch]
        intro x hx
        simp only [List.head?_cons, Option.mem_def, Option.some.injEq] at hx
        rw [← hx]
        omega)
    have hgs : _getSheet wb sheetName = .ok s := by
      unfold _getSheet
      rw [if_neg hname, hfind]
    refine ⟨g2, happ, ?_, ?_, ?_, ?_, ?_⟩
    · simp only [_deleteRows, hgs, hni, Bool.false_eq_true, if_false, happ, hsum]
    · rw [hsum] at hlen
      exact hlen
    · rw [hbatch]
      exact hchain
    · rw [hbatch]
      exact hposb
    · rw [hcov]
      exact hperm

/-- C3 witness: rows 3, 4, 5, 9 on a physical 20-row sheet issue exactly
the two calls (9, 1) then (3, 3) — descending, with the 3..5 run
coalesced — and 16 rows remain. -/
theorem deleteRows_descending_batched_witness :
    _batchRuns (sortDesc [3, 4, 5, 9]) = [(9, 1), (3, 3)]
    ∧ (∃ g2, applyDeletes (List.replicate 20 ["v"]) (_batchRuns (sortDesc [3, 4, 5, 9])) = some g2
       ∧ _deleteRows ⟨[⟨"D", List.replicate 20 ["v"], 0⟩], 0⟩ "D" [3, 4, 5, 9] none =
           .ok (updateSheet ⟨[⟨"D", List.replicate 20 ["v"], 0⟩], 0⟩ "D"
             (fun sh => { sh with grid := g2 }),
             "Deleted " ++ toString ([3, 4, 5, 9] : List Nat).length ++ " row(s) from " ++ "D")
       ∧ g2.length = (List.replicate 20 (["v"] : List String)).length - ([3, 4, 5, 9] : List Nat).length
       ∧ List.Chain' (fun x y => y.1 + y.2 < x.1) (_batchRuns (sortDesc [3, 4, 5, 9]))
       ∧ (∀ b ∈ _batchRuns (sortDesc [3, 4, 5, 9]), 1 ≤ b.1 ∧ 1 ≤ b.2)
       ∧ List.Perm (expandBatches (_batchRuns (sortDesc [3, 4, 5, 9]))) [3, 4, 5, 9]) := by
  refine ⟨by decide, ?_⟩
  exact deleteRows_descending_batched ⟨[⟨"D", List.replicate 20 ["v"], 0⟩], 0⟩ "D" [3, 4, 5, 9]
    ⟨"D", List.replicate 20 ["v"], 0⟩ (by decide) rfl (by decide) (by decide) (by decide)

/-- The message a dispatch produces: the result string on success, the
error-prefixed exception message on a throw. -/
def dispatchMessage (wb : Workbook) (a : Action) : String :=
  match executeSheetAction wb a with
  | .ok p => p.2
  | .error e => "Error: " ++ e

/-- A true dispatchOk comes from an ok dispatch. -/
lemma dispatchOk_true {wb : Workbook} {a : Action} (h : dispatchOk wb a = true) :
    ∃ p, executeSheetAction wb a = .ok p := by
  unfold dispatchOk at h
  cases he : executeSheetAction wb a with
  | ok p => exact ⟨p, rfl⟩
  | error e => rw [he] at h; simp at h

/-- A false dispatchOk comes from a thrown dispatch. -/
lemma dispatchOk_false {wb : Workbook} {a : Action} (h : dispatchOk wb a = false) :
    ∃ e, executeSheetAction wb a = .error e := by
  unfold dispatchOk at h
  cases he : executeSheetAction wb a with
  | ok p => rw [he] at h; simp at h
  | error e => exact ⟨e, rfl⟩

/-- The state before step 0 is the input workbook. -/
lemma stateBefore_zero (wb : Workbook) (steps : List Action) :
    stateBefore wb steps 0 = wb := by
  cases steps <;> rfl

/-- Unfolding of stateBefore over a leading step. -/
lemma stateBefore_cons_succ (wb : Workbook) (a : Action) (rest : List Action) (j : Nat) :
    stateBefore wb (a :: rest) (j + 1) = stateBefore (applyStep wb a) rest j := rfl

/-- applyStep on an ok dispatch is the dispatched workbook. -/
lemma applyStep_eq_of_ok {wb : Workbook} {a : Action} {p : Workbook × String}
    (h : executeSheetAction wb a = .ok p) : applyStep wb a = p.1 := by
  simp [applyStep, h]

/-- Executor unfolding on an ok dispatch. -/
lemma stepPlanAux_cons_ok {wb : Workbook} {a : Action} {p : Workbook × String}
    (h : executeSheetAction wb a = .ok p) (rest : List Action) (k : Nat) :
    executeStepPlanAux wb (a :: rest) k =
      ((executeStepPlanAux p.1 rest (k + 1)).1,
        { step := k, status := "done", result := p.2 } ::
          (executeStepPlanAux p.1 rest (k + 1)).2) := by
  simp only [executeStepPlanAux, h, flush]

/-- Executor unfolding on a thrown dispatch. -/
lemma stepPlanAux_cons_err {wb : Workbook} {a : Action} {e : String}
    (h : executeSheetAction wb a = .error e) (rest : List Action) (k : Nat) :
    executeStepPlanAux wb (a :: rest) k =
      (wb, [{ step := k, status := "error", result := "Error: " ++ e }]) := by
  simp only [executeStepPlanAux, h]

/-- Every attempted plan produces at least one report entry. -/
lemma stepPlanAux_length_pos (wb : Workbook) (steps : List Action) (k : Nat)
    (h : steps ≠ []) : 1 ≤ (executeStepPlanAux wb steps k).2.length := by
  cases steps with
  | nil => exact absurd rfl h
  | cons a rest =>
    cases he : executeSheetAction wb a with
    | ok p => rw [stepPlanAux_cons_ok he]; simp
    | error e => rw [stepPlanAux_cons_err he]; simp

/-- When every dispatch of the plan returns normally the report has one
done entry per step and the final workbook is the state after the last
step. -/
lemma stepPlanAux_all_ok : ∀ (steps : List Action) (wb : Workbook) (k : Nat),
    (∀ j b, steps[j]? = some b → dispatchOk (stateBefore wb steps j) b = true) →
    (executeStepPlanAux wb steps k).2.length = steps.length
    ∧ (∀ e ∈ (executeStepPlanAux wb steps k).2, e.status = "done")
    ∧ (executeStepPlanAux wb steps k).1 = stateBefore wb steps steps.length := by
  intro steps
  induction steps with
  | nil =>
    intro wb k _
    refine ⟨rfl, ?_, rfl⟩
    intro e he
    simp [executeStepPlanAux] at he
  | cons a0 rest ih =>
    intro wb k hall
    have h0 : dispatchOk wb a0 = true := by
      have := hall 0 a0 (by simp)
      rwa [stateBefore_zero] at this
    obtain ⟨p, hp⟩ := dispatchOk_true h0
    have hall2 : ∀ j b, rest[j]? = some b → dispatchOk (stateBefore p.1 rest j) b = true := by
      intro j b hb
      have := hall (j + 1) b (by simpa using hb)
      rwa [stateBefore_cons_succ, applyStep_eq_of_ok hp] at this
    obtain ⟨hlen, hdone, hfin⟩ := ih p.1 (k + 1) hall2
    rw [stepPlanAux_cons_ok hp]
    refine ⟨by simpa using hlen, ?_, ?_⟩
    · intro e he
      simp only [List.mem_cons] at he
      rcases he with rfl | he
      · rfl
      · exact hdone e he
    · show (executeStepPlanAux p.1 rest (k + 1)).1 = stateBefore wb (a0 :: rest) (rest.length + 1)
      rw [stateBefore_cons_succ, applyStep_eq_of_ok hp]
      exact hfin

/-- When the dispatches before step i return normally and step i throws,
the report stops with exactly i + 1 entries: a done entry per earlier
step, an error entry for step i, and the final workbook is the state the
executor held before step i (earlier effects persist, later steps are
never attempted). -/
lemma stepPlanAux_fail : ∀ (steps : List Action) (wb : Workbook) (k i : Nat) (a : Action),
    (∀ j b, j < i → steps[j]? = some b → dispatchOk (stateBefore wb steps j) b = true) →
    steps[i]? = some a →
    dispatchOk (stateBefore wb steps i) a = false →
    (executeStepPlanAux wb steps k).2.length = i + 1
    ∧ (∀ j, j < i →
        ((executeStepPlanAux wb steps k).2.get? j).map ReportEntry.status = some "done"
        ∧ ((executeStepPlanAux wb steps k).2.get? j).map ReportEntry.step = some (k + j))
    ∧ ((executeStepPlanAux wb steps k).2.get? i).map ReportEntry.status = some "error"
    ∧ ((executeStepPlanAux wb steps k).2.get? i).map ReportEntry.step = some (k + i)
    ∧ (executeStepPlanAux wb steps k).1 = stateBefore wb steps i := by
  intro steps
  induction steps with
  | nil =>
    intro wb k i a _ hget _
    simp at hget
  | cons a0 rest ih =>
    intro wb k i a hprev hget hfail
    cases i with
    | zero =>
      rw [stateBefore_zero] at hfail
      have hget0 : a0 = a := by simpa using hget
      subst hget0
      obtain ⟨e, he⟩ := dispatchOk_false hfail
      rw [stepPlanAux_cons_err he]
      refine ⟨rfl, ?_, rfl, rfl, (stateBefore_zero wb _).symm⟩
      intro j hj
      omega
    | succ i2 =>
      have h0 : dispatchOk wb a0 = true := by
        have := hprev 0 a0 (Nat.succ_pos i2) (by simp)
        rwa [stateBefore_zero] at this
      obtain ⟨p, hp⟩ := dispatchOk_true h0
      have hstate : ∀ j, stateBefore wb (a0 :: rest) (j + 1) = stateBefore p.1 rest j := by
        intro j
        rw [stateBefore_cons_succ, applyStep_eq_of_ok hp]
      have hprev2 : ∀ j b, j < i2 → rest[j]? = some b →
          dispatchOk (stateBefore p.1 rest j) b = true := by
        intro j b hj hb
        have := hprev (j + 1) b (Nat.succ_lt_succ hj) (by simpa using hb)
        rwa [hstate j] at this
      have hget2 : rest[i2]? = some a := by simpa using hget
      have hfail2 : dispatchOk (stateBefore p.1 rest i2) a = false := by
        rw [← hstate i2]
        exact hfail
      obtain ⟨hlen, hdone, herr, herrstep, hfin⟩ := ih p.1 (k + 1) i2 a hprev2 hget2 hfail2
      rw [stepPlanAux_cons_ok hp]
      refine ⟨by simpa using hlen, ?_, by simpa using herr, ?_, ?_⟩
      · intro j hj
        cases j with
        | zero => exact ⟨rfl, by simp⟩
        | succ j2 =>
          have hj2 : j2 < i2 := Nat.lt_of_succ_lt_succ hj
          have hd := hdone j2 hj2
          constructor
          · show ((executeStepPlanAux p.1 rest (k + 1)).2.get? j2).map ReportEntry.status = some "done"
            exact hd.1
          · show ((executeStepPlanAux p.1 rest (k + 1)).2.get? j2).map ReportEntry.step = some (k + (j2 + 1))
            rw [hd.2]
            exact congrArg some (by omega)
      · show ((executeStepPlanAux p.1 rest (k + 1)).2.get? i2).map ReportEntry.step = some (k + (i2 + 1))
        rw [herrstep]
        exact congrArg some (by omega)
      · show (executeStepPlanAux p.1 rest (k + 1)).1 = stateBefore wb (a0 :: rest) (i2 + 1)
        rw [hstate i2]
        exact hfin

/-- When the dispatches up to and including step i return normally, the
report records step i as done with the dispatched message, and when more
steps remain at least one further entry follows (the plan keeps
running). -/
lemma stepPlanAux_done_at : ∀ (steps : List Action) (wb : Workbook) (k i : Nat) (a : Action),
    (∀ j b, j < i → steps[j]? = some b → dispatchOk (stateBefore wb steps j) b = true) →
    steps[i]? = some a →
    dispatchOk (stateBefore wb steps i) a = true →
    ((executeStepPlanAux wb steps k).2.get? i).map ReportEntry.status = some "done"
    ∧ ((executeStepPlanAux wb steps k).2.get? i).map ReportEntry.result =
        some (dispatchMessage (stateBefore wb steps i) a)
    ∧ (i + 1 < steps.length → i + 2 ≤ (executeStepPlanAux wb steps k).2.length) := by
  intro steps
  induction steps with
  | nil =>
    intro wb k i a _ hget _
    simp at hget
  | cons a0 rest ih =>
    intro wb k i a hprev hget hok
    cases i with
    | zero =>
      rw [stateBefore_zero] at hok
      have hget0 : a0 = a := by simpa using hget
      subst hget0
      obtain ⟨p, hp⟩ := dispatchOk_true hok
      rw [stepPlanAux_cons_ok hp]
      refine ⟨rfl, ?_, ?_⟩
      · show some p.2 = some (dispatchMessage (stateBefore wb (a0 :: rest) 0) a0)
        rw [stateBefore_zero]
        simp [dispatchMessage, hp]
      · intro hlt
        have hrest : rest ≠ [] := by
          intro hnil
          rw [hnil] at hlt
          simp at hlt
        have := stepPlanAux_length_pos p.1 rest (k + 1) hrest
        show 0 + 2 ≤ ({ step := k, status := "done", result := p.2 } ::
          (executeStepPlanAux p.1 rest (k + 1)).2).length
        simp only [List.length_cons]
        omega
    | succ i2 =>
      have h0 : dispatchOk wb a0 = true := by
        have := hprev 0 a0 (Nat.succ_pos i2) (by simp)
        rwa [stateBefore_zero] at this
      obtain ⟨p, hp⟩ := dispatchOk_true h0
      have hstate : ∀ j, stateBefore wb (a0 :: rest) (j + 1) = stateBefore p.1 rest j := by
        intro j
        rw [stateBefore_cons_succ, applyStep_eq_of_ok hp]
      have hprev2 : ∀ j b, j < i2 → rest[j]? = some b →
          dispatchOk (stateBefore p.1 rest j) b = true := by
        intro j b hj hb
        have := hprev (j + 1) b (Nat.succ_lt_succ hj) (by simpa using hb)
        rwa [hstate j] at this
      have hget2 : rest[i2]? = some a := by simpa using hget
      have hok2 : dispatchOk (stateBefore p.1 rest i2) a = true := by
        rw [← hstate i2]
        exact hok
      obtain ⟨hstat, hres, hlen⟩ := ih p.1 (k + 1) i2 a hprev2 hget2 hok2
      rw [stepPlanAux_cons_ok hp]
      refine ⟨by simpa using hstat, ?_, ?_⟩
      · show ((executeStepPlanAux p.1 rest (k + 1)).2.get? i2).map ReportEntry.result =
          some (dispatchMessage (stateBefore wb (a0 :: rest) (i2 + 1)) a)
        rw [hstate i2]
        exact hres
      · intro hlt
        have hlt2 : i2 + 1 < rest.length := by
          simp only [List.length_cons] at hlt
          omega
        have := hlen hlt2
        show i2 + 1 + 2 ≤ ({ step := k, status := "done", result := p.2 } ::
          (executeStepPlanAux p.1 rest (k + 1)).2).length
        simp only [List.length_cons]
        omega

/-- C1: given that every dispatch before position i returns normally
(0-based; report step numbers are 1-based), the Execution Report
satisfies the halt-on-first-failure contract: if i reaches the plan
length, every step produced a done entry and the final workbook is the
state after the last step; if instead step i throws, the report has
exactly i + 1 entries — the first i done, entry i an error — the final
workbook is the state the executor held before step i (no rollback of
earlier steps), and no later step is attempted (one entry exists per
attempted step). -/
theorem executeStepPlan_halts_on_first_failure (wb : Workbook) (steps : List Action) (i : Nat)
    (hprev : ∀ j b, j < i → steps[j]? = some b → dispatchOk (stateBefore wb steps j) b = true) :
    (i = steps.length →
      (executeStepPlan wb steps).2.length = steps.length
      ∧ (∀ e ∈ (executeStepPlan wb steps).2, e.status = "done")
      ∧ (executeStepPlan wb steps).1 = stateBefore wb steps steps.length)
    ∧ (∀ a, steps[i]? = some a → dispatchOk (stateBefore wb steps i) a = false →
      (executeStepPlan wb steps).2.length = i + 1
      ∧ (∀ j, j < i →
          ((executeStepPlan wb steps).2.get? j).map ReportEntry.status = some "done"
          ∧ ((executeStepPlan wb steps).2.get? j).map ReportEntry.step = some (j + 1))
      ∧ ((executeStepPlan wb steps).2.get? i).map ReportEntry.status = some "error"
      ∧ ((executeStepPlan wb steps).2.get? i).map ReportEntry.step = some (i + 1)
      ∧ (executeStepPlan wb steps).1 = stateBefore wb steps i) := by
  constructor
  · intro hi
    subst hi
    refine stepPlanAux_all_ok steps wb 1 ?_
    intro j b hb
    have hj : j < steps.length := by
      by_contra hge
      rw [List.getElem?_eq_none (by omega)] at hb
      exact Option.noConfusion hb
    exact hprev j b hj hb
  · intro a hget hfail
    simp only [executeStepPlan]
    obtain ⟨hlen, hdone, herr, herrstep, hfin⟩ :=
      stepPlanAux_fail steps wb 1 i a hprev hget hfail
    refine ⟨hlen, ?_, herr, ?_, hfin⟩
    · intro j hj
      have hd := hdone j hj
      refine ⟨hd.1, ?_⟩
      rw [hd.2]
      exact congrArg some (by omega)
    · rw [herrstep]
      exact congrArg some (by omega)

/-- Three-step fixture plan whose second step throws: a createSheet, a
deleteRows against a missing sheet (its handler resolves the sheet
through the throwing _getSheet), and another createSheet. -/
def stepsC1 : List Action :=
  [{ action := "createSheet", name := "Temp" },
   { action := "deleteRows", sheet := "Missing", rows := [2] },
   { action := "createSheet", name := "B" }]

/-- One-sheet fixture workbook for the executor claims. -/
def wbC1 : Workbook := ⟨[⟨"Data", [["x"]], 0⟩], 0⟩

/-- C1 witness: on the fixture plan the report stops at length 2 — step
1 done, step 2 error — and the workbook keeps the effect of step 1. -/
theorem executeStepPlan_halts_on_first_failure_witness :
    (executeStepPlan wbC1 stepsC1).2.length = 2
    ∧ ((executeStepPlan wbC1 stepsC1).2.get? 0).map ReportEntry.status = some "done"
    ∧ ((executeStepPlan wbC1 stepsC1).2.get? 0).map ReportEntry.step = some 1
    ∧ ((executeStepPlan wbC1 stepsC1).2.get? 1).map ReportEntry.status = some "error"
    ∧ ((executeStepPlan wbC1 stepsC1).2.get? 1).map ReportEntry.step = some 2
    ∧ (executeStepPlan wbC1 stepsC1).1 = stateBefore wbC1 stepsC1 1 := by
  have hprev : ∀ j b, j < 1 → stepsC1[j]? = some b →
      dispatchOk (stateBefore wbC1 stepsC1 j) b = true := by
    intro j b hj hb
    have hj0 : j = 0 := by omega
    subst hj0
    simp only [stepsC1, List.getElem?_cons_zero, Option.some.injEq] at hb
    subst hb
    decide
  have h := (executeStepPlan_halts_on_first_failure wbC1 stepsC1 1 hprev).2
    { action := "deleteRows", sheet := "Missing", rows := [2] } (by decide) (by decide)
  obtain ⟨hlen, hdone, herr, herrstep, hfin⟩ := h
  have hd := hdone 0 (by omega)
  exact ⟨hlen, hd.1, hd.2, herr, herrstep, hfin⟩

/-- C10 counterexample: a plan whose first step is a deleteRows against
a missing sheet halts immediately with an error entry — the handler
resolves its sheet through _getSheet, which throws — so a sheet-not-
found failure can very well halt a plan, against the claim. -/
theorem missing_sheet_throw_halts_plan :
    (executeStepPlan ⟨[⟨"Data", [["x"]], 0⟩], 0⟩
      [{ action := "deleteRows", sheet := "Missing", rows := [2] },
       { action := "createSheet", name := "X" }]).2 =
      [{ step := 1, status := "error", result := "Error: Sheet not found: Missing" }] := by
  decide

/-- C10 amended: for the handlers that resolve their sheet through
getSheetByName and degrade to a message — setFormula and setValues, the
cited ones — a missing target sheet yields an ordinary not-found result
string without throwing, so the plan records the step as done and keeps
executing the remaining steps. -/
theorem notFound_message_continues (wb : Workbook) (steps : List Action) (i : Nat) (a : Action)
    (hget : steps[i]? = some a)
    (hkind : a.action = "setFormula" ∨ a.action = "setValues")
    (hmissing : getSheetByName (stateBefore wb steps i) a.sheet = none)
    (hprev : ∀ j b, j < i → steps[j]? = some b → dispatchOk (stateBefore wb steps j) b = true) :
    ((executeStepPlan wb steps).2.get? i).map ReportEntry.status = some "done"
    ∧ ((executeStepPlan wb steps).2.get? i).map ReportEntry.result =
        some ("Sheet " ++ sq ++ a.sheet ++ sq ++ " not found")
    ∧ (i + 1 < steps.length → i + 2 ≤ (executeStepPlan wb steps).2.length) := by
  have hdisp : executeSheetAction (stateBefore wb steps i) a =
      .ok (stateBefore wb steps i, "Sheet " ++ sq ++ a.sheet ++ sq ++ " not found") := by
    rcases hkind with ha | ha
    · simp [executeSheetAction, ha, setFormula, hmissing]
    · simp [executeSheetAction, ha, setValues, hmissing]
  have hok : dispatchOk (stateBefore wb steps i) a = true := by
    simp [dispatchOk, hdisp]
  obtain ⟨hstat, hres, hlen⟩ := stepPlanAux_done_at steps wb 1 i a hprev hget hok
  refine ⟨hstat, ?_, hlen⟩
  show ((executeStepPlanAux wb steps 1).2.get? i).map ReportEntry.result =
    some ("Sheet " ++ sq ++ a.sheet ++ sq ++ " not found")
  rw [hres]
  simp [dispatchMessage, hdisp]

/-- C10 amended witness: a setFormula against the missing sheet Nope as
step 1 of a two-step plan is recorded done with the not-found message
and the second step still runs. -/
theorem notFound_message_continues_witness :
    ((executeStepPlan ⟨[⟨"Data", [["x"]], 0⟩], 0⟩
        [{ action := "setFormula", sheet := "Nope", cell := "A1", formula := "=1" },
         { action := "createSheet", name := "Y" }]).2.get? 0).map ReportEntry.status = some "done"
    ∧ ((executeStepPlan ⟨[⟨"Data", [["x"]], 0⟩], 0⟩
        [{ action := "setFormula", sheet := "Nope", cell := "A1", formula := "=1" },
         { action := "createSheet", name := "Y" }]).2.get? 0).map ReportEntry.result =
        some ("Sheet " ++ sq ++ "Nope" ++ sq ++ " not found")
    ∧ 2 ≤ (executeStepPlan ⟨[⟨"Data", [["x"]], 0⟩], 0⟩
        [{ action := "setFormula", sheet := "Nope", cell := "A1", formula := "=1" },
         { action := "createSheet", name := "Y" }]).2.length := by
  have h := notFound_message_continues ⟨[⟨"Data", [["x"]], 0⟩], 0⟩
    [{ action := "setFormula", sheet := "Nope", cell := "A1", formula := "=1" },
     { action := "createSheet", name := "Y" }] 0
    { action := "setFormula", sheet := "Nope", cell := "A1", formula := "=1" }
    rfl (Or.inl rfl) (by decide) (fun j b hj _ => absurd hj (by omega))
  exact ⟨h.1, h.2.1, h.2.2 (by decide)⟩

/-- The synchronization flush is the identity on the model. -/
@[simp] lemma flush_eq (wb : Workbook) : flush wb = wb := rfl

/-- In-place sheet mutation keeps the sheet count. -/
@[simp] lemma length_updateSheet (wb : Workbook) (nm : String) (f : Sheet → Sheet) :
    (updateSheet wb nm f).sheets.length = wb.sheets.length := by
  simp [updateSheet]

/-- In-place active-sheet mutation keeps the sheet count. -/
@[simp] lemma length_updateActiveSheet (wb : Workbook) (f : Sheet → Sheet) :
    (updateActiveSheet wb f).sheets.length = wb.sheets.length := by
  unfold updateActiveSheet
  cases h : wb.sheets.get? wb.active <;> simp

/-- Erasing at most one element drops the length by at most one. -/
lemma length_eraseP_ge : ∀ (l : List α) (q : α → Bool), l.length - 1 ≤ (l.eraseP q).length := by
  intro l q
  induction l with
  | nil => simp
  | cons a l ih =>
    rw [List.eraseP_cons]
    cases hq : q a <;> simp <;> omega

/-- Preservation of a positive sheet count, one lemma per handler. -/
lemma pres_applyFilter {wb : Workbook} {c cr : String} {p : Workbook × String}
    (h : _applyFilter wb c cr = .ok p) (hne : 1 ≤ wb.sheets.length) :
    1 ≤ p.1.sheets.length := by
  unfold _applyFilter at h
  try simp only [] at h
  repeat' split at h
  all_goals try cases h
  all_goals try simp_all
  all_goals omega

/-- Sort preserves the sheet count. -/
lemma pres_applySort {wb : Workbook} {c : String} {b : Bool} {p : Workbook × String}
    (h : _applySort wb c b = .ok p) (hne : 1 ≤ wb.sheets.length) :
    1 ≤ p.1.sheets.length := by
  unfold _applySort at h
  try simp only [] at h
  repeat' split at h
  all_goals try cases h
  all_goals try simp_all
  all_goals omega

/-- Highlight preserves the sheet count. -/
lemma pres_applyHighlight {wb : Workbook} {r c : String} {p : Workbook × String}
    (h : _applyHighlight wb r c = .ok p) (hne : 1 ≤ wb.sheets.length) :
    1 ≤ p.1.sheets.length := by
  unfold _applyHighlight at h
  try simp only [] at h
  repeat' split at h
  all_goals try cases h
  all_goals try simp_all
  all_goals omega

/-- Single-cell write preserves the sheet count. -/
lemma pres_setCellValue {wb : Workbook} {c v : String} {p : Workbook × String}
    (h : _setCellValue wb c v = .ok p) (hne : 1 ≤ wb.sheets.length) :
    1 ≤ p.1.sheets.length := by
  unfold _setCellValue at h
  try simp only [] at h
  repeat' split at h
  all_goals try cases h
  all_goals try simp_all
  all_goals omega

/-- Column insertion preserves the sheet count. -/
lemma pres_insertColumn {wb : Workbook} {c hd : String} {p : Workbook × String}
    (h : _insertColumn wb c hd = .ok p) (hne : 1 ≤ wb.sheets.length) :
    1 ≤ p.1.sheets.length := by
  unfold _insertColumn at h
  try simp only [] at h
  repeat' split at h
  all_goals try cases h
  all_goals try simp_all
  all_goals omega

/-- Chart creation preserves the sheet count. -/
lemma pres_createChart {wb : Workbook} {t r ti : String} {p : Workbook × String}
    (h : _createChart wb t r ti = .ok p) (hne : 1 ≤ wb.sheets.length) :
    1 ≤ p.1.sheets.length := by
  unfold _createChart at h
  try simp only [] at h
  repeat' split at h
  all_goals try cases h
  all_goals try simp_all
  all_goals omega

/-- Ranged chart creation preserves the sheet count. -/
lemma pres_createChartOnSheet {wb : Workbook} {t ti sn r : String} {p : Workbook × String}
    (h : _createChartOnSheet wb t ti sn r = .ok p) (hne : 1 ≤ wb.sheets.length) :
    1 ≤ p.1.sheets.length := by
  unfold _createChartOnSheet at h
  try simp only [] at h
  repeat' split at h
  all_goals try cases h
  all_goals try simp_all
  all_goals omega

/-- Column chart creation preserves the sheet count. -/
lemma pres_createChartFromColumns {wb : Workbook} {t ti ds lc vc : String} {sr er : Nat}
    {p : Workbook × String}
    (h : _createChartFromColumns wb t ti ds lc vc sr er = .ok p) (hne : 1 ≤ wb.sheets.length) :
    1 ≤ p.1.sheets.length := by
  unfold _createChartFromColumns at h
  try simp only [] at h
  repeat' split at h
  all_goals try cases h
  all_goals try simp_all
  all_goals omega

/-- Chart removal preserves the sheet count. -/
lemma pres_deleteChartsOnSheet {wb : Workbook} {sn : String} {p : Workbook × String}
    (h : _deleteChartsOnSheet wb sn = .ok p) (hne : 1 ≤ wb.sheets.length) :
    1 ≤ p.1.sheets.length := by
  unfold _deleteChartsOnSheet at h
  try simp only [] at h
  repeat' split at h
  all_goals try cases h
  all_goals try simp_all
  all_goals omega

/-- createSheet clears in place or appends, never removes. -/
lemma pres_createSheet {wb : Workbook} {nm : String} {p : Workbook × String}
    (h : createSheet wb nm = .ok p) (hne : 1 ≤ wb.sheets.length) :
    1 ≤ p.1.sheets.length := by
  unfold createSheet at h
  try simp only [] at h
  repeat' split at h
  all_goals try cases h
  all_goals try simp_all
  all_goals omega

/-- setFormula writes cells in place. -/
lemma pres_setFormula {wb : Workbook} {sn c f : String} {fd : Bool} {p : Workbook × String}
    (h : setFormula wb sn c f fd = .ok p) (hne : 1 ≤ wb.sheets.length) :
    1 ≤ p.1.sheets.length := by
  unfold setFormula at h
  try simp only [] at h
  repeat' split at h
  all_goals try cases h
  all_goals try simp_all
  all_goals omega

/-- setValues writes cells in place. -/
lemma pres_setValues {wb : Workbook} {sn r : String} {v : List (List String)}
    {p : Workbook × String}
    (h : setValues wb sn r v = .ok p) (hne : 1 ≤ wb.sheets.length) :
    1 ≤ p.1.sheets.length := by
  unfold setValues at h
  try simp only [] at h
  repeat' split at h
  all_goals try cases h
  all_goals try simp_all
  all_goals omega

/-- autoFillDown writes cells in place. -/
lemma pres_autoFillDown {wb : Workbook} {sn c : String} {lr : Nat} {p : Workbook × String}
    (h : autoFillDown wb sn c lr = .ok p) (hne : 1 ≤ wb.sheets.length) :
    1 ≤ p.1.sheets.length := by
  unfold autoFillDown at h
  try simp only [] at h
  repeat' split at h
  all_goals try cases h
  all_goals try simp_all
  all_goals omega

/-- formatRange is visual. -/
lemma pres_formatRange {wb : Workbook} {sn r : String} {p : Workbook × String}
    (h : formatRange wb sn r = .ok p) (hne : 1 ≤ wb.sheets.length) :
    1 ≤ p.1.sheets.length := by
  unfold formatRange at h
  try simp only [] at h
  repeat' split at h
  all_goals try cases h
  all_goals try simp_all
  all_goals omega

/-- readRange only reads. -/
lemma pres_readRange {wb : Workbook} {sn r : String} {p : Workbook × String}
    (h : readRange wb sn r = .ok p) (hne : 1 ≤ wb.sheets.length) :
    1 ≤ p.1.sheets.length := by
  unfold readRange at h
  try simp only [] at h
  repeat' split at h
  all_goals try cases h
  all_goals try simp_all
  all_goals omega

/-- Number formats are visual. -/
lemma pres_applyNumberFormat {wb : Workbook} {sn r f : String} {p : Workbook × String}
    (h : _applyNumberFormat wb sn r f = .ok p) (hne : 1 ≤ wb.sheets.length) :
    1 ≤ p.1.sheets.length := by
  unfold _applyNumberFormat at h
  try simp only [] at h
  repeat' split at h
  all_goals try cases h
  all_goals try simp_all
  all_goals omega

/-- Borders are visual. -/
lemma pres_setBorders {wb : Workbook} {sn r st : String} {p : Workbook × String}
    (h : _setBorders wb sn r st = .ok p) (hne : 1 ≤ wb.sheets.length) :
    1 ≤ p.1.sheets.length := by
  unfold _setBorders at h
  try simp only [] at h
  repeat' split at h
  all_goals try cases h
  all_goals try simp_all
  all_goals omega

/-- Frozen panes are visual. -/
lemma pres_freeze {wb : Workbook} {sn : String} {r c : Option Nat} {p : Workbook × String}
    (h : _freeze wb sn r c = .ok p) (hne : 1 ≤ wb.sheets.length) :
    1 ≤ p.1.sheets.length := by
  unfold _freeze at h
  try simp only [] at h
  repeat' split at h
  all_goals try cases h
  all_goals try simp_all
  all_goals omega

/-- Column widths are visual. -/
lemma pres_autoResizeColumns {wb : Workbook} {sn : String} {ca : Bool} {cs : List String}
    {p : Workbook × String}
    (h : _autoResizeColumns wb sn ca cs = .ok p) (hne : 1 ≤ wb.sheets.length) :
    1 ≤ p.1.sheets.length := by
  unfold _autoResizeColumns at h
  try simp only [] at h
  repeat' split at h
  all_goals try cases h
  all_goals try simp_all
  all_goals omega

/-- Row deletion mutates one sheet in place. -/
lemma pres_deleteRows {wb : Workbook} {sn : String} {rs : List Nat}
    {cond : Option DeleteCondition} {p : Workbook × String}
    (h : _deleteRows wb sn rs cond = .ok p) (hne : 1 ≤ wb.sheets.length) :
    1 ≤ p.1.sheets.length := by
  unfold _deleteRows at h
  try simp only [] at h
  repeat' split at h
  all_goals try cases h
  all_goals try simp_all
  all_goals omega

/-- Column deletion mutates one sheet in place. -/
lemma pres_deleteColumns {wb : Workbook} {sn : String} {cs : List String}
    {p : Workbook × String}
    (h : _deleteColumns wb sn cs = .ok p) (hne : 1 ≤ wb.sheets.length) :
    1 ≤ p.1.sheets.length := by
  unfold _deleteColumns at h
  try simp only [] at h
  repeat' split at h
  all_goals try cases h
  all_goals try simp_all
  all_goals omega

/-- Merging is visual. -/
lemma pres_mergeCells {wb : Workbook} {sn r t : String} {p : Workbook × String}
    (h : _mergeCells wb sn r t = .ok p) (hne : 1 ≤ wb.sheets.length) :
    1 ≤ p.1.sheets.length := by
  unfold _mergeCells at h
  try simp only [] at h
  repeat' split at h
  all_goals try cases h
  all_goals try simp_all
  all_goals omega

/-- Clearing mutates one sheet in place. -/
lemma pres_clearRange {wb : Workbook} {sn r t : String} {p : Workbook × String}
    (h : _clearRange wb sn r t = .ok p) (hne : 1 ≤ wb.sheets.length) :
    1 ≤ p.1.sheets.length := by
  unfold _clearRange at h
  try simp only [] at h
  repeat' split at h
  all_goals try cases h
  all_goals try simp_all
  all_goals omega

/-- Copying mutates the destination sheet in place. -/
lemma pres_copyRange {wb : Workbook} {ss sr ds dc : String} {vo : Bool}
    {p : Workbook × String}
    (h : _copyRange wb ss sr ds dc vo = .ok p) (hne : 1 ≤ wb.sheets.length) :
    1 ≤ p.1.sheets.length := by
  unfold _copyRange at h
  try simp only [] at h
  repeat' split at h
  all_goals try cases h
  all_goals try simp_all
  all_goals omega

/-- Conditional-format rules are visual. -/
lemma pres_conditionalFormat {wb : Workbook} {sn r t o : String} {p : Workbook × String}
    (h : _conditionalFormat wb sn r t o = .ok p) (hne : 1 ≤ wb.sheets.length) :
    1 ≤ p.1.sheets.length := by
  unfold _conditionalFormat at h
  try simp only [] at h
  repeat' split at h
  all_goals try cases h
  all_goals try simp_all
  all_goals omega

/-- Validation rules are visual. -/
lemma pres_setDataValidation {wb : Workbook} {sn r t : String} {p : Workbook × String}
    (h : _setDataValidation wb sn r t = .ok p) (hne : 1 ≤ wb.sheets.length) :
    1 ≤ p.1.sheets.length := by
  unfold _setDataValidation at h
  try simp only [] at h
  repeat' split at h
  all_goals try cases h
  all_goals try simp_all
  all_goals omega

/-- Renaming mutates in place. -/
lemma pres_renameSheet {wb : Workbook} {o n : String} {p : Workbook × String}
    (h : _renameSheet wb o n = .ok p) (hne : 1 ≤ wb.sheets.length) :
    1 ≤ p.1.sheets.length := by
  unfold _renameSheet at h
  try simp only [] at h
  repeat' split at h
  all_goals try cases h
  all_goals try simp_all
  all_goals omega

/-- Copying a sheet appends. -/
lemma pres_copySheet {wb : Workbook} {s n : String} {p : Workbook × String}
    (h : _copySheet wb s n = .ok p) (hne : 1 ≤ wb.sheets.length) :
    1 ≤ p.1.sheets.length := by
  unfold _copySheet at h
  try simp only [] at h
  repeat' split at h
  all_goals try cases h
  all_goals try simp_all
  all_goals omega

/-- Sheet deletion is guarded: it only erases when at least two sheets
exist, so at least one remains. -/
lemma pres_deleteSheet {wb : Workbook} {nm : String} {p : Workbook × String}
    (h : _deleteSheet wb nm = .ok p) (hne : 1 ≤ wb.sheets.length) :
    1 ≤ p.1.sheets.length := by
  unfold _deleteSheet at h
  have hg := length_eraseP_ge wb.sheets (fun x => x.name == nm)
  try simp only [] at h
  repeat' split at h
  all_goals try cases h
  all_goals try simp_all
  all_goals omega

/-- Find-replace mutates in place. -/
lemma pres_findReplace {wb : Workbook} {sn f r rg : String} {mc : Bool}
    {p : Workbook × String}
    (h : _findReplace wb sn f r rg mc = .ok p) (hne : 1 ≤ wb.sheets.length) :
    1 ≤ p.1.sheets.length := by
  unfold _findReplace at h
  try simp only [] at h
  repeat' split at h
  all_goals try cases h
  all_goals try simp_all
  all_goals omega

/-- Every normally-returning dispatch keeps the workbook non-empty. -/
lemma execAction_preserves {wb : Workbook} {a : Action} {p : Workbook × String}
    (h : executeSheetAction wb a = .ok p) (hne : 1 ≤ wb.sheets.length) :
    1 ≤ p.1.sheets.length := by
  unfold executeSheetAction at h
  by_cases h0 : a.action = ""
  · rw [if_pos h0] at h
    rw [← Except.ok.inj h]
    simpa using hne
  rw [if_neg h0] at h
  by_cases h1 : a.action = "filter"
  · rw [if_pos h1] at h
    exact pres_applyFilter h hne
  rw [if_neg h1] at h
  by_cases h2 : a.action = "sort"
  · rw [if_pos h2] at h
    exact pres_applySort h hne
  rw [if_neg h2] at h
  by_cases h3 : a.action = "highlight"
  · rw [if_pos h3] at h
    exact pres_applyHighlight h hne
  rw [if_neg h3] at h
  by_cases h4 : a.action = "setValue"
  · rw [if_pos h4] at h
    exact pres_setCellValue h hne
  rw [if_neg h4] at h
  by_cases h5 : a.action = "insertColumn"
  · rw [if_pos h5] at h
    exact pres_insertColumn h hne
  rw [if_neg h5] at h
  by_cases h6 : a.action = "chart"
  · rw [if_pos h6] at h
    exact pres_createChart h hne
  rw [if_neg h6] at h
  by_cases h7 : a.action = "createChart"
  · rw [if_pos h7] at h
    try simp only [] at h
    split at h
    · exact pres_createChartOnSheet h hne
    · exact pres_createChartFromColumns h hne
  rw [if_neg h7] at h
  by_cases h8 : a.action = "createSheet"
  · rw [if_pos h8] at h
    exact pres_createSheet h hne
  rw [if_neg h8] at h
  by_cases h9 : a.action = "setFormula"
  · rw [if_pos h9] at h
    exact pres_setFormula h hne
  rw [if_neg h9] at h
  by_cases h10 : a.action = "setValues"
  · rw [if_pos h10] at h
    exact pres_setValues h hne
  rw [if_neg h10] at h
  by_cases h11 : a.action = "autoFillDown"
  · rw [if_pos h11] at h
    exact pres_autoFillDown h hne
  rw [if_neg h11] at h
  by_cases h12 : a.action = "formatRange"
  · rw [if_pos h12] at h
    exact pres_formatRange h hne
  rw [if_neg h12] at h
  by_cases h13 : a.action = "readRange"
  · rw [if_pos h13] at h
    exact pres_readRange h hne
  rw [if_neg h13] at h
  by_cases h14 : a.action = "deleteCharts"
  · rw [if_pos h14] at h
    exact pres_deleteChartsOnSheet h hne
  rw [if_neg h14] at h
  by_cases h15 : a.action = "numberFormat"
  · rw [if_pos h15] at h
    exact pres_applyNumberFormat h hne
  rw [if_neg h15] at h
  by_cases h16 : a.action = "setBorders"
  · rw [if_pos h16] at h
    exact pres_setBorders h hne
  rw [if_neg h16] at h
  by_cases h17 : a.action = "freeze"
  · rw [if_pos h17] at h
    exact pres_freeze h hne
  rw [if_neg h17] at h
  by_cases h18 : a.action = "autoResize"
  · rw [if_pos h18] at h
    exact pres_autoResizeColumns h hne
  rw [if_neg h18] at h
  by_cases h19 : a.action = "deleteRows"
  · rw [if_pos h19] at h
    exact pres_deleteRows h hne
  rw [if_neg h19] at h
  by_cases h20 : a.action = "deleteColumns"
  · rw [if_pos h20] at h
    exact pres_deleteColumns h hne
  rw [if_neg h20] at h
  by_cases h21 : a.action = "mergeCells"
  · rw [if_pos h21] at h
    exact pres_mergeCells h hne
  rw [if_neg h21] at h
  by_cases h22 : a.action = "clearRange"
  · rw [if_pos h22] at h
    exact pres_clearRange h hne
  rw [if_neg h22] at h
  by_cases h23 : a.action = "copyRange"
  · rw [if_pos h23] at h
    exact pres_copyRange h hne
  rw [if_neg h23] at h
  by_cases h24 : a.action = "conditionalFormat"
  · rw [if_pos h24] at h
    exact pres_conditionalFormat h hne
  rw [if_neg h24] at h
  by_cases h25 : a.action = "dataValidation"
  · rw [if_pos h25] at h
    exact pres_setDataValidation h hne
  rw [if_neg h25] at h
  by_cases h26 : a.action = "renameSheet"
  · rw [if_pos h26] at h
    exact pres_renameSheet h hne
  rw [if_neg h26] at h
  by_cases h27 : a.action = "copySheet"
  · rw [if_pos h27] at h
    exact pres_copySheet h hne
  rw [if_neg h27] at h
  by_cases h28 : a.action = "deleteSheet"
  · rw [if_pos h28] at h
    exact pres_deleteSheet h hne
  rw [if_neg h28] at h
  by_cases h29 : a.action = "findReplace"
  · rw [if_pos h29] at h
    exact pres_findReplace h hne
  rw [if_neg h29] at h
  rw [← Except.ok.inj h]
  simpa using hne

/-- The plan executor keeps the workbook non-empty. -/
lemma stepPlanAux_preserves : ∀ (steps : List Action) (wb : Workbook) (k : Nat),
    1 ≤ wb.sheets.length → 1 ≤ (executeStepPlanAux wb steps k).1.sheets.length := by
  intro steps
  induction steps with
  | nil => intro wb k h; exact h
  | cons a rest ih =>
    intro wb k h
    cases he : executeSheetAction wb a with
    | ok p =>
      rw [stepPlanAux_cons_ok he]
      exact ih p.1 (k + 1) (execAction_preserves he h)
    | error e =>
      rw [stepPlanAux_cons_err he]
      exact h

/-- The guarded deletion loop of the Undo operation keeps the workbook
non-empty: it only deletes while more than one sheet exists. -/
lemma undoDeleteStep_preserves (acc : Workbook × List String) (nm : String)
    (h : 1 ≤ acc.1.sheets.length) : 1 ≤ (undoDeleteStep acc nm).1.sheets.length := by
  unfold undoDeleteStep
  split
  · exact h
  · split
    · have hg := length_eraseP_ge acc.1.sheets (fun x => x.name == nm)
      show 1 ≤ (acc.1.sheets.eraseP (fun x => x.name == nm)).length
      omega
    · exact h

/-- Folded deletion loop preservation. -/
lemma undoDeletes_preserves : ∀ (nms : List String) (acc : Workbook × List String),
    1 ≤ acc.1.sheets.length → 1 ≤ (nms.foldl undoDeleteStep acc).1.sheets.length := by
  intro nms
  induction nms with
  | nil => intro acc h; exact h
  | cons nm rest ih =>
    intro acc h
    exact ih (undoDeleteStep acc nm) (undoDeleteStep_preserves acc nm h)

/-- The clearing loop mutates sheets in place. -/
lemma undoClears_preserves : ∀ (entries : List ClearEntry) (wb : Workbook) (res : List String)
    (p : Workbook × List String), undoClears wb res entries = .ok p →
    1 ≤ wb.sheets.length → 1 ≤ p.1.sheets.length := by
  intro entries
  induction entries with
  | nil =>
    intro wb res p h hne
    rw [← Except.ok.inj h]
    simpa using hne
  | cons e rest ih =>
    intro wb res p h hne
    unfold undoClears at h
    repeat' split at h
    · exact ih wb res p h hne
    · exact Except.noConfusion h
    · exact ih _ _ p h (by simpa using hne)

/-- undoSheetActions keeps the workbook non-empty. -/
lemma undoSheetActions_preserves {wb : Workbook} {info : Option UndoInfo}
    {p : Workbook × String}
    (h : undoSheetActions wb info = .ok p) (hne : 1 ≤ wb.sheets.length) :
    1 ≤ p.1.sheets.length := by
  unfold undoSheetActions at h
  cases info with
  | none =>
    rw [← Except.ok.inj h]
    simpa using hne
  | some i =>
    simp only [undoCore] at h
    cases hc : undoClears (i.sheetsToDelete.foldl undoDeleteStep (wb, [])).1
        (i.sheetsToDelete.foldl undoDeleteStep (wb, [])).2 i.cellsToClear with
    | error e =>
      rw [hc] at h
      simp [Except.map] at h
    | ok q =>
      rw [hc] at h
      simp only [Except.map] at h
      have hq : 1 ≤ q.1.sheets.length :=
        undoClears_preserves i.cellsToClear _ _ q hc
          (undoDeletes_preserves i.sheetsToDelete (wb, []) hne)
      rw [← Except.ok.inj h]
      simpa using hq

/-- C5: every engine operation leaves the Workbook with at least one
Sheet — a normally-returning single-action dispatch, a whole plan run,
and the Undo operation all preserve non-emptiness of the sheet list
(deleteSheet and the deletion loop of undoSheetActions are guarded and
skip any deletion that would remove the last sheet). -/
theorem workbook_retains_a_sheet :
    (∀ (wb : Workbook) (a : Action) (p : Workbook × String),
       executeSheetAction wb a = .ok p → wb.sheets ≠ [] → p.1.sheets ≠ [])
    ∧ (∀ (wb : Workbook) (steps : List Action),
       wb.sheets ≠ [] → (executeStepPlan wb steps).1.sheets ≠ [])
    ∧ (∀ (wb : Workbook) (info : Option UndoInfo) (p : Workbook × String),
       undoSheetActions wb info = .ok p → wb.sheets ≠ [] → p.1.sheets ≠ []) := by
  refine ⟨?_, ?_, ?_⟩
  · intro wb a p h hne
    rw [← List.length_pos] at hne ⊢
    exact execAction_preserves h hne
  · intro wb steps hne
    rw [← List.length_pos] at hne ⊢
    exact stepPlanAux_preserves steps wb 1 hne
  · intro wb info p h hne
    rw [← List.length_pos] at hne ⊢
    exact undoSheetActions_preserves h hne

/-- C5 witness: deleteSheet aimed at the only sheet is refused — the
dispatch returns the guard message and the workbook keeps its sheet. -/
theorem workbook_retains_a_sheet_witness :
    executeSheetAction ⟨[⟨"Only", [["x"]], 0⟩], 0⟩ { action := "deleteSheet", name := "Only" } =
      .ok (⟨[⟨"Only", [["x"]], 0⟩], 0⟩, "Cannot delete the last sheet")
    ∧ ((⟨[⟨"Only", [["x"]], 0⟩], 0⟩ : Workbook), "Cannot delete the last sheet").1.sheets ≠ [] := by
  refine ⟨rfl, ?_⟩
  exact workbook_retains_a_sheet.1 ⟨[⟨"Only", [["x"]], 0⟩], 0⟩
    { action := "deleteSheet", name := "Only" }
    (⟨[⟨"Only", [["x"]], 0⟩], 0⟩, "Cannot delete the last sheet") rfl (by decide)

/-- On a one-sheet workbook the deletion loop of the Undo operation
deletes nothing and reports the last-sheet guard once per occurrence of
the sheet name, skipping unknown names silently. -/
lemma undoDeletes_single : ∀ (nms : List String) (wb : Workbook) (s : Sheet)
    (res : List String), wb.sheets = [s] →
    (nms.foldl undoDeleteStep (wb, res)).1 = wb
    ∧ (nms.foldl undoDeleteStep (wb, res)).2 =
        res ++ nms.filterMap (fun nm =>
          if s.name = nm then
            some ("Cannot delete " ++ sq ++ nm ++ sq ++ " (last sheet)")
          else none) := by
  intro nms
  induction nms with
  | nil =>
    intro wb s res _
    exact ⟨rfl, by simp⟩
  | cons nm rest ih =>
    intro wb s res hw
    have hstep : undoDeleteStep (wb, res) nm =
        (wb, res ++ (if s.name = nm then
          ["Cannot delete " ++ sq ++ nm ++ sq ++ " (last sheet)"] else [])) := by
      unfold undoDeleteStep getSheetByName
      rw [hw]
      by_cases hnm : s.name = nm
      · simp [List.find?, hnm, hw]
      · simp [List.find?, hnm]
    rw [List.foldl_cons, hstep]
    obtain ⟨h1, h2⟩ := ih wb s
      (res ++ (if s.name = nm then
        ["Cannot delete " ++ sq ++ nm ++ sq ++ " (last sheet)"] else [])) hw
    refine ⟨h1, ?_⟩
    rw [h2, List.filterMap_cons]
    by_cases hnm : s.name = nm <;> simp [hnm]

/-- A name-preserving in-place sheet update keeps the name list. -/
lemma map_name_updateSheet (wb : Workbook) (nm : String) (f : Sheet → Sheet)
    (hf : ∀ sh, (f sh).name = sh.name) :
    (updateSheet wb nm f).sheets.map Sheet.name = wb.sheets.map Sheet.name := by
  simp only [updateSheet, List.map_map]
  refine List.map_congr_left ?_
  intro x _
  by_cases h : x.name = nm <;> simp [h, hf]

/-- One-step unfolding of the clearing loop. -/
lemma undoClears_cons (wb : Workbook) (res : List String) (e : ClearEntry)
    (rest : List ClearEntry) :
    undoClears wb res (e :: rest) =
      match getSheetByName wb e.sheet with
      | none => undoClears wb res rest
      | some _ =>
        match parseRangeA1 e.range with
        | none => .error ("Range not found: " ++ e.range)
        | some (r1, c1, r2, c2) =>
          undoClears
            (updateSheet wb e.sheet (fun sh => { sh with grid := clearRect sh.grid r1 c1 r2 c2 }))
            (res ++ ["Cleared " ++ e.sheet ++ "!" ++ e.range]) rest := rfl

/-- On a workbook whose single sheet is named like s, the clearing loop
succeeds (given parsable ranges on matching entries), keeps the name
list, and appends one cleared message per matching entry, skipping
entries whose sheet name does not exist. -/
lemma undoClears_single : ∀ (entries : List ClearEntry) (wb : Workbook) (s : Sheet)
    (res : List String), wb.sheets.map Sheet.name = [s.name] →
    (∀ e ∈ entries, e.sheet = s.name → parseRangeA1 e.range ≠ none) →
    ∃ wb2 res2, undoClears wb res entries = .ok (wb2, res2)
      ∧ wb2.sheets.map Sheet.name = [s.name]
      ∧ res2 = res ++ entries.filterMap (fun e =>
          if e.sheet = s.name then some ("Cleared " ++ e.sheet ++ "!" ++ e.range) else none) := by
  intro entries
  induction entries with
  | nil =>
    intro wb s res hw _
    exact ⟨wb, res, rfl, hw, by simp⟩
  | cons e rest ih =>
    intro wb s res hw hranges
    obtain ⟨t, hsheets, htname⟩ : ∃ t, wb.sheets = [t] ∧ t.name = s.name := by
      cases hs : wb.sheets with
      | nil => rw [hs] at hw; simp at hw
      | cons t l =>
        rw [hs] at hw
        simp at hw
        exact ⟨t, by rw [hw.2], hw.1⟩
    have hlookup : getSheetByName wb e.sheet =
        (if e.sheet = s.name then some t else none) := by
      unfold getSheetByName
      rw [hsheets]
      by_cases hns : e.sheet = s.name
      · simp [List.find?, hns, htname]
      · have : ¬(t.name = e.sheet) := by rw [htname]; exact fun hc => hns hc.symm
        simp [List.find?, hns, this]
    by_cases hns : e.sheet = s.name
    · have hp : parseRangeA1 e.range ≠ none :=
        hranges e (List.mem_cons_self e rest) hns
      cases hq : parseRangeA1 e.range with
      | none => exact absurd hq hp
      | some q =>
        obtain ⟨r1, c1, r2, c2⟩ := q
        have hfound : getSheetByName wb s.name = some t := by
          unfold getSheetByName
          rw [hsheets]
          simp [List.find?, htname]
        have hunf : undoClears wb res (e :: rest) =
            undoClears
              (updateSheet wb e.sheet (fun sh => { sh with grid := clearRect sh.grid r1 c1 r2 c2 }))
              (res ++ ["Cleared " ++ e.sheet ++ "!" ++ e.range]) rest := by
          rw [undoClears_cons, hlookup]
          simp only [hns, eq_self_iff_true, if_true, hq]
        have hw2 : (updateSheet wb e.sheet
            (fun sh => { sh with grid := clearRect sh.grid r1 c1 r2 c2 })).sheets.map Sheet.name =
            [s.name] := by
          rw [map_name_updateSheet wb e.sheet
            (fun sh => { sh with grid := clearRect sh.grid r1 c1 r2 c2 }) (fun sh => rfl)]
          exact hw
        obtain ⟨wb2, res2, hrun, hname2, hres2⟩ := ih _ s _ hw2
          (fun x hx hxs => hranges x (List.mem_cons_of_mem e hx) hxs)
        refine ⟨wb2, res2, by rw [hunf]; exact hrun, hname2, ?_⟩
        rw [hres2, List.filterMap_cons]
        simp [hns]
    · have hunf : undoClears wb res (e :: rest) = undoClears wb res rest := by
        rw [undoClears_cons, hlookup]
        simp only [hns, if_false]
      obtain ⟨wb2, res2, hrun, hname2, hres2⟩ := ih wb s res hw
        (fun x hx hxs => hranges x (List.mem_cons_of_mem e hx) hxs)
      refine ⟨wb2, res2, by rw [hunf]; exact hrun, hname2, ?_⟩
      rw [hres2, List.filterMap_cons]
      simp [hns]

/-- C6: on a workbook whose only sheet is named in sheetsToDelete, the
Undo operation leaves the sheet intact, reports that it could not be
deleted, and still processes every cellsToClear entry naming the sheet
(appending a cleared message for each) — no all-or-nothing abort. -/
theorem undoSheetActions_last_sheet_guard (wb : Workbook) (s : Sheet) (info : UndoInfo)
    (hone : wb.sheets = [s])
    (hmem : s.name ∈ info.sheetsToDelete)
    (hranges : ∀ e ∈ info.cellsToClear, e.sheet = s.name → parseRangeA1 e.range ≠ none) :
    ∃ wb2 res2, undoCore wb info = .ok (wb2, res2)
      ∧ undoSheetActions wb (some info) = .ok (wb2, String.intercalate "; " res2)
      ∧ wb2.sheets.map Sheet.name = [s.name]
      ∧ ("Cannot delete " ++ sq ++ s.name ++ sq ++ " (last sheet)") ∈ res2
      ∧ (∀ e ∈ info.cellsToClear, e.sheet = s.name →
          ("Cleared " ++ e.sheet ++ "!" ++ e.range) ∈ res2) := by
  obtain ⟨hd1, hd2⟩ := undoDeletes_single info.sheetsToDelete wb s [] hone
  have hw : ((info.sheetsToDelete.foldl undoDeleteStep (wb, [])).1).sheets.map Sheet.name
      = [s.name] := by
    rw [hd1, hone]
    simp
  obtain ⟨wb2, res2, hrun, hname2, hres2⟩ :=
    undoClears_single info.cellsToClear _ s (info.sheetsToDelete.foldl undoDeleteStep (wb, [])).2
      hw hranges
  have hcore : undoCore wb info = .ok (wb2, res2) := by
    unfold undoCore
    exact hrun
  have hcannot : ("Cannot delete " ++ sq ++ s.name ++ sq ++ " (last sheet)") ∈ res2 := by
    rw [hres2, hd2]
    apply List.mem_append_left
    apply List.mem_append_right
    apply List.mem_filterMap.mpr
    exact ⟨s.name, hmem, by simp⟩
  have hne2 : res2.isEmpty = false := by
    cases hres : res2 with
    | nil => rw [hres] at hcannot; simp at hcannot
    | cons x l => rfl
  refine ⟨wb2, res2, hcore, ?_, hname2, hcannot, ?_⟩
  · have hdef : undoSheetActions wb (some info) = (undoCore wb info).map
        (fun p => (p.1, if p.2.isEmpty then "Nothing to undo" else String.intercalate "; " p.2)) := rfl
    rw [hdef, hcore]
    simp [Except.map, hne2]
  · intro e he hes
    rw [hres2]
    apply List.mem_append_right
    apply List.mem_filterMap.mpr
    exact ⟨e, he, by simp [hes]⟩

/-- C6 witness: a workbook with the single sheet Summary, undone with
sheetsToDelete containing Summary and one clear entry on Summary. -/
theorem undoSheetActions_last_sheet_guard_witness :
    ∃ wb2 res2,
      undoCore ⟨[⟨"Summary", [["a", "b"], ["c", "d"]], 0⟩], 0⟩
        { sheetsToDelete := ["Summary"], cellsToClear := [⟨"Summary", "A1:B1"⟩] } =
        .ok (wb2, res2)
      ∧ undoSheetActions ⟨[⟨"Summary", [["a", "b"], ["c", "d"]], 0⟩], 0⟩
          (some { sheetsToDelete := ["Summary"], cellsToClear := [⟨"Summary", "A1:B1"⟩] }) =
          .ok (wb2, String.intercalate "; " res2)
      ∧ wb2.sheets.map Sheet.name = ["Summary"]
      ∧ ("Cannot delete " ++ sq ++ "Summary" ++ sq ++ " (last sheet)") ∈ res2
      ∧ (∀ e ∈ [(⟨"Summary", "A1:B1"⟩ : ClearEntry)], e.sheet = "Summary" →
          ("Cleared " ++ e.sheet ++ "!" ++ e.range) ∈ res2) := by
  exact undoSheetActions_last_sheet_guard ⟨[⟨"Summary", [["a", "b"], ["c", "d"]], 0⟩], 0⟩
    ⟨"Summary", [["a", "b"], ["c", "d"]], 0⟩
    { sheetsToDelete := ["Summary"], cellsToClear := [⟨"Summary", "A1:B1"⟩] }
    rfl (by decide) (by decide)

/-- The 2000 by 26 uniformly filled fixture grid: 52000 non-empty cells
inside the MAX_ROWS window, above the MAX_CELLS ceiling. -/
def bigGrid : Grid := List.replicate 2000 (List.replicate 26 "x")

/-- Fixture sheet around the big grid. -/
def bigSheet : Sheet := ⟨"Big", bigGrid, 0⟩

/-- A position inside a replicate reads the replicated element. -/
lemma get?_replicate {α} (x : α) : ∀ (n i : Nat), i < n →
    (List.replicate n x).get? i = some x := by
  intro n
  induction n with
  | zero => intro i h; omega
  | succ n ih =>
    intro i h
    cases i with
    | zero => rfl
    | succ i2 => exact ih i2 (by omega)

/-- A last-marker fold over an all-true range returns the range bound. -/
lemma foldl_mark_all (p : Nat → Prop) [DecidablePred p] : ∀ (n : Nat), (∀ i, i < n → p i) →
    (List.range n).foldl (fun acc i => if p i then i + 1 else acc) 0 = n := by
  intro n
  induction n with
  | zero => intro _; rfl
  | succ n ih =>
    intro hall
    rw [List.range_succ, List.foldl_append]
    simp only [List.foldl_cons, List.foldl_nil, hall n (by omega), if_true]

/-- Last data row of a uniformly filled grid. -/
lemma lastRowOf_replicate (n : Nat) (row : List String) (h : rowHasData row = true) :
    lastRowOf (List.replicate n row) = n := by
  unfold lastRowOf
  rw [List.length_replicate]
  apply foldl_mark_all (fun i => rowHasData (((List.replicate n row).get? i).getD []) = true)
  intro i hi
  rw [get?_replicate row n i hi]
  simpa using h

/-- Last data column of a uniformly filled row. -/
lemma rowLastCol_replicate (m : Nat) (v : String) (hv : v ≠ "") :
    rowLastCol (List.replicate m v) = m := by
  unfold rowLastCol
  rw [List.length_replicate]
  apply foldl_mark_all (fun i => (((List.replicate m v).get? i).getD "") ≠ "")
  intro i hi
  rw [get?_replicate v m i hi]
  simpa using hv

/-- The max fold of a constant positive column count. -/
lemma foldl_max_replicate (row : List String) (m : Nat)
    (hrow : rowLastCol row = m) : ∀ (n acc : Nat), n ≠ 0 →
    (List.replicate n row).foldl (fun a r => max a (rowLastCol r)) acc = max acc m := by
  intro n
  induction n with
  | zero => intro acc h; exact absurd rfl h
  | succ n ih =>
    intro acc _
    rw [List.replicate_succ, List.foldl_cons, hrow]
    by_cases hn : n = 0
    · subst hn
      rfl
    · rw [ih (max acc m) hn, max_assoc, max_self]

/-- Last data column of a uniformly filled grid. -/
lemma lastColOf_replicate (n m : Nat) (v : String) (hn : n ≠ 0) (hv : v ≠ "") :
    lastColOf (List.replicate n (List.replicate m v)) = m := by
  unfold lastColOf
  rw [foldl_max_replicate (List.replicate m v) m (rowLastCol_replicate m v hv) n 0 hn]
  simp

/-- A filterMap that never drops keeps the length. -/
lemma length_filterMap_all_some {α β} (f : α → Option β) : ∀ (l : List α),
    (∀ a ∈ l, (f a).isSome = true) → (l.filterMap f).length = l.length := by
  intro l
  induction l with
  | nil => intro _; rfl
  | cons a l ih =>
    intro h
    rw [List.filterMap_cons]
    cases hf : f a with
    | none =>
      have := h a (List.mem_cons_self a l)
      rw [hf] at this
      simp at this
    | some b =>
      simp only [List.length_cons]
      rw [ih (fun x hx => h x (List.mem_cons_of_mem a hx))]

/-- Length of a flatMap with constant block size. -/
lemma length_flatMap_const {α β} (f : α → List β) (C : Nat) : ∀ (l : List α),
    (∀ a ∈ l, (f a).length = C) → (l.flatMap f).length = l.length * C := by
  intro l
  induction l with
  | nil => intro _; simp
  | cons a l ih =>
    intro h
    rw [List.flatMap_cons, List.length_append, h a (List.mem_cons_self a l),
      ih (fun x hx => h x (List.mem_cons_of_mem a hx)), List.length_cons]
    ring

/-- Cell lookup inside the uniformly filled grid. -/
lemma getCell_replicate (R C r c : Nat) (v : String) (hr : r < R) (hc : c < C) :
    getCell (List.replicate R (List.replicate C v)) (r + 1) (c + 1) = v := by
  unfold getCell
  have h1 : r + 1 - 1 = r := by omega
  have h2 : c + 1 - 1 = c := by omega
  rw [h1, h2, get?_replicate _ R r hr]
  simp only [Option.getD_some]
  rw [get?_replicate v C c hc]
  rfl

/-- The cell map the source builds over a uniformly filled grid holds
one entry per cell. -/
lemma readCellsMap_replicate_length (R C : Nat) :
    (readCellsMap (List.replicate R (List.replicate C "x")) R C).length = R * C := by
  unfold readCellsMap
  rw [length_flatMap_const _ C _ ?_, List.length_range]
  intro r hr
  rw [List.mem_range] at hr
  rw [length_filterMap_all_some _ _ ?_, List.length_range]
  intro c hc
  rw [List.mem_range] at hc
  simp only [getCell_replicate R C r c "x" hr hc]
  rfl

/-- The truncated-payload branch of _readSheetData, shared by the C9
theorem and its counterexample: an over-ceiling cell count yields the
truncation flag, an empty map, a reason and the count. -/
lemma readSheetData_over_spec (s : Sheet)
    (hover : (readCellsMap s.grid (min (max (lastRowOf s.grid) 1) MAX_ROWS)
        (max (lastColOf s.grid) 1)).length > MAX_CELLS) :
    (_readSheetData s).truncated = true
    ∧ (_readSheetData s).cells = []
    ∧ (_readSheetData s).truncatedReason ≠ none
    ∧ (_readSheetData s).cellCount = some ((readCellsMap s.grid
        (min (max (lastRowOf s.grid) 1) MAX_ROWS) (max (lastColOf s.grid) 1)).length) := by
  unfold _readSheetData
  rw [if_pos (by exact hover)]
  refine ⟨rfl, rfl, by simp, rfl⟩

/-- The fixture count: 52000 cells inside the window. -/
lemma bigGrid_count : (readCellsMap bigGrid (min (max (lastRowOf bigGrid) 1) MAX_ROWS)
    (max (lastColOf bigGrid) 1)).length = 52000 := by
  have hlr : lastRowOf bigGrid = 2000 :=
    lastRowOf_replicate 2000 (List.replicate 26 "x") (by decide)
  have hlc : lastColOf bigGrid = 26 :=
    lastColOf_replicate 2000 26 "x" (by decide) (by decide)
  rw [hlr, hlc]
  show (readCellsMap bigGrid 2000 26).length = 52000
  exact readCellsMap_replicate_length 2000 26

/-- C9 counterexample: the code does materialize the oversized cell map.
On the fixture sheet the cell map the source builds before its size
check (readCellsMap, the loop of lines 117 to 126) holds 52000 entries,
above MAX_CELLS, while the returned payload carries an empty map with
the truncation flag — the oversized map is built and then discarded,
never skipped. -/
theorem readSheetData_builds_oversized_map :
    (readCellsMap bigGrid (min (max (lastRowOf bigGrid) 1) MAX_ROWS)
        (max (lastColOf bigGrid) 1)).length = 52000
    ∧ 52000 > MAX_CELLS
    ∧ (_readSheetData bigSheet).cells = []
    ∧ (_readSheetData bigSheet).truncated = true
    ∧ (_readSheetData bigSheet).cellCount = some 52000 := by
  have hover : (readCellsMap bigSheet.grid
      (min (max (lastRowOf bigSheet.grid) 1) MAX_ROWS)
      (max (lastColOf bigSheet.grid) 1)).length > MAX_CELLS := by
    show (readCellsMap bigGrid (min (max (lastRowOf bigGrid) 1) MAX_ROWS)
      (max (lastColOf bigGrid) 1)).length > MAX_CELLS
    rw [bigGrid_count]
    decide
  obtain ⟨ht, hc, _, hcnt⟩ := readSheetData_over_spec bigSheet hover
  refine ⟨bigGrid_count, by decide, hc, ht, ?_⟩
  rw [hcnt]
  exact congrArg some bigGrid_count

/-- C9 amended: _readSheetData reads at most MAX_ROWS rows, and whenever
the non-empty cell count of that window exceeds MAX_CELLS the returned
payload has the truncation flag set, an empty cell map, a reason string
and the cell count; the oversized map itself is built internally in
order to count it (see the counterexample) but is never returned. -/
theorem readSheetData_truncates_oversized (s : Sheet)
    (hover : (readCellsMap s.grid (min (max (lastRowOf s.grid) 1) MAX_ROWS)
        (max (lastColOf s.grid) 1)).length > MAX_CELLS) :
    min (max (lastRowOf s.grid) 1) MAX_ROWS ≤ MAX_ROWS
    ∧ (_readSheetData s).truncated = true
    ∧ (_readSheetData s).cells = []
    ∧ (_readSheetData s).truncatedReason ≠ none
    ∧ (_readSheetData s).cellCount = some ((readCellsMap s.grid
        (min (max (lastRowOf s.grid) 1) MAX_ROWS) (max (lastColOf s.grid) 1)).length) := by
  obtain ⟨h1, h2, h3, h4⟩ := readSheetData_over_spec s hover
  exact ⟨min_le_right _ _, h1, h2, h3, h4⟩

/-- C9 amended witness: the fixture sheet exceeds the ceiling and gets
the truncated payload. -/
theorem readSheetData_truncates_oversized_witness :
    min (max (lastRowOf bigSheet.grid) 1) MAX_ROWS ≤ MAX_ROWS
    ∧ (_readSheetData bigSheet).truncated = true
    ∧ (_readSheetData bigSheet).cells = []
    ∧ (_readSheetData bigSheet).truncatedReason ≠ none
    ∧ (_readSheetData bigSheet).cellCount = some ((readCellsMap bigSheet.grid
        (min (max (lastRowOf bigSheet.grid) 1) MAX_ROWS)
        (max (lastColOf bigSheet.grid) 1)).length) := by
  apply readSheetData_truncates_oversized bigSheet
  show (readCellsMap bigGrid (min (max (lastRowOf bigGrid) 1) MAX_ROWS)
      (max (lastColOf bigGrid) 1)).length > MAX_CELLS
  rw [bigGrid_count]
  decide

end Sheetmind
